import Mathlib

/-!
Verification of the Sozi presentation document model
(`sozi.document` namespace: `Frame`, `Presentation`).

The development shallowly embeds the layer-building pass performed by
`Presentation.init`, the selection operations on layers and frames, and
`Presentation.addFrame`, and proves the properties claimed of them.
-/

namespace SoziDoc

/-- The SVG element names that can be found in layers (`DRAWABLE_TAGS`). -/
def DRAWABLE_TAGS : List String :=
  ["g", "image", "path", "rect", "circle", "ellipse", "line", "polyline",
   "polygon", "text", "clippath"]

/-- A direct child of the SVG root: either a non-element node (text or
comment, whose `tagName` is `undefined`), or an element with its local name,
optional `id` attribute, optional `inkscape:label` attribute and children. -/
inductive SvgNode where
  | textNode : SvgNode
  | elem (localName : String) (idAttr : Option String)
      (inkLabel : Option String) (children : List SvgNode) : SvgNode

/-- JavaScript truthiness of `getAttribute("id")`: the attribute is present
and is not the empty string. -/
def attrTruthy : Option String → Bool
  | none => false
  | some s => !(s == "")

/-- ASCII lowercasing of a tag name (`localName.toLowerCase()`), defined by
structural recursion over the character list so that it computes. -/
def lowerStr (s : String) : String := ⟨s.data.map Char.toLower⟩

/-- Whether a node is a drawable element
(`DRAWABLE_TAGS.indexOf(nodeName) !== -1`). -/
def isDrawable : SvgNode → Bool
  | SvgNode.textNode => false
  | SvgNode.elem localName _ _ _ => DRAWABLE_TAGS.contains (lowerStr localName)

/-- A layer record as stored in `this.layers`.  The final wrapper layer is
registered without a `label` field, hence `label` is optional. -/
structure Layer where
  auto : Bool
  selected : Bool
  label : Option String
  svgNode : SvgNode

/-- JavaScript object property membership (`key in obj`). -/
def objHas (m : List (String × Layer)) (k : String) : Bool :=
  m.any (fun e => e.1 == k)

/-- JavaScript object property assignment (`obj[key] = v`): an existing key
keeps its position and gets the new value, a new key is appended. -/
def objSet (m : List (String × Layer)) (k : String) (v : Layer) :
    List (String × Layer) :=
  if m.any (fun e => e.1 == k) then
    m.map (fun e => if e.1 == k then (e.1, v) else e)
  else m ++ [(k, v)]

/-- JavaScript object property read (`obj[key]`). -/
def objGet (m : List (String × Layer)) (k : String) : Option Layer :=
  (m.find? (fun e => e.1 == k)).map (fun e => e.2)

/-- The id given to the synthesized wrapper number `count`
(`"sozi-wrapper-" + this.id + "-" + wrapperCount`). -/
def wrapperId (presId : Nat) (count : Nat) : String :=
  "sozi-wrapper-" ++ Nat.repr presId ++ "-" ++ Nat.repr count

/-! Decimal representation facts: `Nat.repr` is injective and its result is
nonempty.  These underpin the distinctness of the synthesized wrapper ids
`sozi-wrapper-<presId>-<count>`. -/

/-- Reference decimal digit list of a natural number. -/
def decDigits (n : Nat) : List Char :=
  if n < 10 then [Nat.digitChar n]
  else decDigits (n / 10) ++ [Nat.digitChar (n % 10)]
decreasing_by exact Nat.div_lt_self (by omega) (by omega)

/-- The numeric value of a decimal digit character. -/
def digitVal (c : Char) : Nat := c.toNat - 48

/-- A direct child of the SVG root after (part of) the layer-building pass:
either an original child left in place, or a synthesized wrapper holding the
drawable nodes that were moved into it. -/
inductive RootEntry where
  | kept (n : SvgNode) : RootEntry
  | wrapper (wid : String) (children : List SvgNode) : RootEntry

/-- The SVG node a `RootEntry` denotes: a wrapper is a fresh `g` element
carrying only its `id` attribute. -/
def RootEntry.toNode : RootEntry → SvgNode
  | RootEntry.kept n => n
  | RootEntry.wrapper wid ch => SvgNode.elem "g" (some wid) none ch

/-- The state threaded through the layer-building pass of
`Presentation.init`: the layer map, the root's direct children produced so
far, the wrapper counter and the contents of the current (not yet inserted)
wrapper.  `trace` additionally records every `this.layers[...] = ...`
registration in execution order; `layers` is the JavaScript-object view of
the same writes. -/
structure BuildState where
  layers : List (String × Layer)
  trace : List (String × Layer)
  out : List RootEntry
  wrapperCount : Nat
  wrapperChildren : List SvgNode

/-- The initial state of the layer-building pass. -/
def initState : BuildState :=
  { layers := [], trace := [], out := [], wrapperCount := 0,
    wrapperChildren := [] }

/-- The layer record registered for a wrapper flushed in front of a new
explicit layer (`auto`, `selected`, `label`, `svgNode`). -/
def autoLayerOf (wid : String) (wch : List SvgNode) : Layer :=
  { auto := true, selected := true, label := some ("#" ++ wid),
    svgNode := SvgNode.elem "g" (some wid) none wch }

/-- The layer record registered for a new explicit layer node: its label is
the `inkscape:label` attribute when present, else `"#" + id`. -/
def explicitLayerOf (n : SvgNode) (i : String) (il : Option String) : Layer :=
  { auto := false, selected := true,
    label := some (match il with
      | some l => l
      | none => "#" ++ i),
    svgNode := n }

/-- The layer record registered for the final wrapper appended after the
pass: it carries no `label` field. -/
def finalAutoLayerOf (wid : String) (wch : List SvgNode) : Layer :=
  { auto := true, selected := true, label := none,
    svgNode := SvgNode.elem "g" (some wid) none wch }

/-- One iteration of the `svgNodeList.forEach` loop in `Presentation.init`. -/
def initStep (presId : Nat) (st : BuildState) (svgNode : SvgNode) :
    BuildState :=
  match svgNode with
  | SvgNode.textNode => st
  | SvgNode.elem localName idAttr inkLabel _ =>
    let nodeName := lowerStr localName
    if DRAWABLE_TAGS.contains nodeName then
      if nodeName == "g" && attrTruthy idAttr
          && !(objHas st.layers (idAttr.getD "")) then
        let st1 :=
          if st.wrapperChildren.isEmpty then st
          else
            let wid := wrapperId presId st.wrapperCount
            let wlayer : Layer := autoLayerOf wid st.wrapperChildren
            { st with
              out := st.out ++ [RootEntry.wrapper wid st.wrapperChildren],
              layers := objSet st.layers wid wlayer,
              trace := st.trace ++ [(wid, wlayer)],
              wrapperCount := st.wrapperCount + 1,
              wrapperChildren := [] }
        let i := idAttr.getD ""
        let nlayer : Layer := explicitLayerOf svgNode i inkLabel
        { st1 with
          out := st1.out ++ [RootEntry.kept svgNode],
          layers := objSet st1.layers i nlayer,
          trace := st1.trace ++ [(i, nlayer)] }
      else
        { st with wrapperChildren := st.wrapperChildren ++ [svgNode] }
    else
      { st with out := st.out ++ [RootEntry.kept svgNode] }

/-- The `forEach` loop of `Presentation.init` over the snapshot of the
root's direct children. -/
def buildPass (presId : Nat) (children : List SvgNode) : BuildState :=
  children.foldl (initStep presId) initState

/-- The final step of `Presentation.init`: if the current wrapper holds at
least one child, append it to the root and register it (without a `label`
field). -/
def finishPass (presId : Nat) (st : BuildState) : BuildState :=
  if st.wrapperChildren.isEmpty then st
  else
    let wid := wrapperId presId st.wrapperCount
    let wlayer : Layer := finalAutoLayerOf wid st.wrapperChildren
    { st with
      out := st.out ++ [RootEntry.wrapper wid st.wrapperChildren],
      layers := objSet st.layers wid wlayer,
      trace := st.trace ++ [(wid, wlayer)],
      wrapperChildren := [] }

/-- The whole layer-building pass of `Presentation.init`. -/
def runLayerBuilder (presId : Nat) (children : List SvgNode) : BuildState :=
  finishPass presId (buildPass presId children)

/-- A `Frame`, as produced by `Frame.init`.  The opaque view-state snapshot
has an arbitrary type `σ`. -/
structure Frame (σ : Type) where
  id : Nat
  frameId : String
  title : String
  selected : Bool
  state : σ
deriving DecidableEq

/-- `sozi.document.Frame.create().init(pres, state)` with the fresh object
id `newId` drawn from the process-wide counter. -/
def mkFrame {σ : Type} (newId : Nat) (state : σ) : Frame σ :=
  { id := newId, frameId := "frame" ++ Nat.repr newId,
    title := "New frame", selected := false, state := state }

/-- A notification fired by a `Presentation`. -/
inductive PEvent (σ : Type) where
  | selectLayerFired (layerId : String) : PEvent σ
  | deselectLayerFired (layerId : String) : PEvent σ
  | selectFrameFired (frameIndex : Nat) : PEvent σ
  | deselectFrameFired (frameIndex : Nat) : PEvent σ
  | addFrameFired (frame : Frame σ) (frameIndex : Nat) : PEvent σ
deriving DecidableEq

/-- The error raised when a selection operation dereferences an unknown
layer id or an out-of-range frame index (in the source, the `TypeError`
thrown by reading `.selected` of `undefined`). -/
inductive OpError where
  | invalidReference : OpError
deriving DecidableEq

/-- A `Presentation`: its object id, layer map, frame sequence, and the
root's direct children left by the layer-building pass. -/
structure Presentation (σ : Type) where
  id : Nat
  layers : List (String × Layer)
  frames : List (Frame σ)
  svgChildren : List SvgNode

/-- `Presentation.create().init(svgRoot)`: runs the layer-building pass and
starts with an empty frame sequence. -/
def Presentation.mkInit (σ : Type) (presId : Nat) (children : List SvgNode) :
    Presentation σ :=
  let st := runLayerBuilder presId children
  { id := presId, layers := st.layers, frames := [],
    svgChildren := st.out.map RootEntry.toNode }

/-- `Presentation.selectLayer(layerId)`.  Reading `this.layers[layerId]`
of an unknown id throws before any mutation and before any notification. -/
def Presentation.selectLayer {σ : Type} (p : Presentation σ)
    (layerId : String) :
    Except OpError Unit × Presentation σ × List (PEvent σ) :=
  match objGet p.layers layerId with
  | none => (Except.error OpError.invalidReference, p, [])
  | some l =>
    (Except.ok (),
     { p with layers := objSet p.layers layerId { l with selected := true } },
     [PEvent.selectLayerFired layerId])

/-- `Presentation.deselectLayer(layerId)`. -/
def Presentation.deselectLayer {σ : Type} (p : Presentation σ)
    (layerId : String) :
    Except OpError Unit × Presentation σ × List (PEvent σ) :=
  match objGet p.layers layerId with
  | none => (Except.error OpError.invalidReference, p, [])
  | some l =>
    (Except.ok (),
     { p with layers := objSet p.layers layerId { l with selected := false } },
     [PEvent.deselectLayerFired layerId])

/-- `Presentation.selectFrame(frameIndex)`.  Reading
`this.frames[frameIndex]` out of range throws before any mutation and
before any notification. -/
def Presentation.selectFrame {σ : Type} (p : Presentation σ)
    (frameIndex : Nat) :
    Except OpError Unit × Presentation σ × List (PEvent σ) :=
  match p.frames.get? frameIndex with
  | none => (Except.error OpError.invalidReference, p, [])
  | some f =>
    (Except.ok (),
     { p with frames := p.frames.set frameIndex { f with selected := true } },
     [PEvent.selectFrameFired frameIndex])

/-- `Presentation.deselectFrame(frameIndex)`. -/
def Presentation.deselectFrame {σ : Type} (p : Presentation σ)
    (frameIndex : Nat) :
    Except OpError Unit × Presentation σ × List (PEvent σ) :=
  match p.frames.get? frameIndex with
  | none => (Except.error OpError.invalidReference, p, [])
  | some f =>
    (Except.ok (),
     { p with frames := p.frames.set frameIndex { f with selected := false } },
     [PEvent.deselectFrameFired frameIndex])

/-- `Presentation.deselectAllFrames()`: deselects frame `0`, `1`, … in
order, firing one `deselectFrame` notification per frame. -/
def Presentation.deselectAllFrames {σ : Type} (p : Presentation σ) :
    Presentation σ × List (PEvent σ) :=
  ({ p with frames := p.frames.map (fun f => { f with selected := false }) },
   (List.range p.frames.length).map PEvent.deselectFrameFired)

/-- The index at which the `for` loop of `addFrame` breaks: the highest
index of a selected frame, if any. -/
def lastSelectedIndex {σ : Type} : List (Frame σ) → Option Nat
  | [] => none
  | f :: fs =>
    match lastSelectedIndex fs with
    | some k => some (k + 1)
    | none => if f.selected then some 0 else none

/-- `Presentation.addFrame(state)`, run with the fresh object id `newId`
for the created frame.  Returns the updated presentation, the returned
frame and the notifications fired, in order.

When the loop breaks at the highest selected index `k`, the new frame is
spliced in at `k + 1`, and the subsequent `fire("addFrame", frame,
frameIndex)` and `selectFrame(frameIndex)` use the loop variable `k`
unchanged.  When no frame is selected, `frameIndex` is set to the old
length and the frame is pushed at the end. -/
def Presentation.addFrame {σ : Type} (p : Presentation σ) (newId : Nat)
    (state : σ) : Presentation σ × Frame σ × List (PEvent σ) :=
  let frame : Frame σ := mkFrame newId state
  let splice :=
    match lastSelectedIndex p.frames with
    | some k => (p.frames.take (k + 1) ++ frame :: p.frames.drop (k + 1), k)
    | none => (p.frames ++ [frame], p.frames.length)
  let p1 : Presentation σ := { p with frames := splice.1 }
  let evt0 := PEvent.addFrameFired frame splice.2
  let des := p1.deselectAllFrames
  let sel := des.1.selectFrame splice.2
  (sel.2.1, frame, evt0 :: des.2 ++ sel.2.2)

/-- The drawable contents a root entry contributes to the layer sequence:
a synthesized wrapper contributes the nodes moved into it, an original
child contributes itself when it is drawable (then it is an explicit layer
node) and nothing otherwise. -/
def entryContents : RootEntry → List SvgNode
  | RootEntry.kept n => if isDrawable n then [n] else []
  | RootEntry.wrapper _ ch => ch

/-- Concatenated drawable contents of the root's children, in tree order. -/
def outContents (out : List RootEntry) : List SvgNode :=
  (out.map entryContents).flatten

/-- The children of an element node. -/
def nodeKids : SvgNode → List SvgNode
  | SvgNode.textNode => []
  | SvgNode.elem _ _ _ ch => ch

/-- The contents of the auto layers registered in `trace`, in registration
order. -/
def autoRuns (trace : List (String × Layer)) : List (List SvgNode) :=
  (trace.filter (fun e => e.2.auto)).map (fun e => nodeKids e.2.svgNode)

/-- Membership in a list of registered ids. -/
def idsHas (ids : List String) (k : String) : Bool :=
  ids.any (fun x => x == k)

/-- Modelled from the spec: a node qualifies as a new explicit layer when it
is a group element carrying a non-empty id that is not already registered
as a layer id. -/
def specQualifies (ids : List String) : SvgNode → Bool
  | SvgNode.textNode => false
  | SvgNode.elem localName idAttr _ _ =>
    lowerStr localName == "g" && attrTruthy idAttr
      && !(idsHas ids (idAttr.getD ""))

/-- Modelled from the spec: the state of the reference computation of the
maximal runs of consecutive non-qualifying drawables. -/
structure RunsState where
  ids : List String
  wrapperCount : Nat
  run : List SvgNode
  runs : List (List SvgNode)

/-- Modelled from the spec: one child of the root either is skipped (non
element or non drawable), closes the current run by qualifying as an
explicit layer (the closed run is registered under a synthesized wrapper
id), or extends the current run. -/
def specRunsStep (presId : Nat) (rs : RunsState) (n : SvgNode) : RunsState :=
  match n with
  | SvgNode.textNode => rs
  | SvgNode.elem localName idAttr _ _ =>
    if DRAWABLE_TAGS.contains (lowerStr localName) then
      if specQualifies rs.ids (SvgNode.elem localName idAttr none []) then
        let rs1 :=
          if rs.run.isEmpty then rs
          else
            { rs with
              runs := rs.runs ++ [rs.run],
              ids := rs.ids ++ [wrapperId presId rs.wrapperCount],
              wrapperCount := rs.wrapperCount + 1,
              run := [] }
        { rs1 with ids := rs1.ids ++ [idAttr.getD ""] }
      else { rs with run := rs.run ++ [n] }
    else rs

/-- Modelled from the spec: the maximal runs of consecutive non-qualifying
drawable children, each of which must become exactly one auto layer. -/
def specMaximalRuns (presId : Nat) (children : List SvgNode) :
    List (List SvgNode) :=
  let rs := children.foldl (specRunsStep presId)
    { ids := [], wrapperCount := 0, run := [], runs := [] }
  if rs.run.isEmpty then rs.runs else rs.runs ++ [rs.run]

/-- The layer key a root child would contribute on a re-run of the pass:
drawable elements are keyed by their id attribute (defaulted to the empty
string), everything else contributes no key. -/
def nodeKey : SvgNode → Option String
  | SvgNode.textNode => none
  | SvgNode.elem localName idAttr _ _ =>
    if DRAWABLE_TAGS.contains (lowerStr localName) then some (idAttr.getD "")
    else none

/-- Whether a root child already qualifies as its own layer slot on a
re-run of the pass: it is either a non-drawable element or a group element
with a truthy id. -/
def selfLayerNode : SvgNode → Bool
  | SvgNode.textNode => false
  | SvgNode.elem ln ia _ _ =>
      !(DRAWABLE_TAGS.contains (lowerStr ln))
        || (lowerStr ln == "g" && attrTruthy ia)

/-- The layer keys the drawable children of a list would register, in
order. -/
def gIds (l : List SvgNode) : List String := l.filterMap nodeKey

/-- Whether a root entry is an original (kept) drawable child carrying the
id `i`.  Only qualifying groups are ever kept among drawables, so this
detects the root-level explicit layer node with id `i`. -/
def keptWithId (i : String) : RootEntry → Bool
  | RootEntry.kept (SvgNode.elem ln (some j) _ _) =>
      DRAWABLE_TAGS.contains (lowerStr ln) && (j == i)
  | _ => false

/-! Concrete inputs used by the scenario claims. -/

/-- A `rect` element without id. -/
def rectNode : SvgNode := SvgNode.elem "rect" none none []

/-- The explicit layer `<g id="L1">`. -/
def gL1 : SvgNode := SvgNode.elem "g" (some "L1") none []

/-- A `circle` element. -/
def circNode : SvgNode := SvgNode.elem "circle" none none []

/-- A second `<g id="L1">`, distinguishable from the first by its child. -/
def gL1dup : SvgNode := SvgNode.elem "g" (some "L1") none [SvgNode.textNode]

/-- The children list of the concrete layer-building scenario. -/
def scenarioChildren : List SvgNode :=
  [SvgNode.textNode, rectNode, gL1, circNode, gL1dup]

/-- A group whose authored id collides with the first synthesized wrapper id
of presentation `0`. -/
def gCollide : SvgNode := SvgNode.elem "g" (some "sozi-wrapper-0-0") none []

/-- A second group with the same colliding id. -/
def gCollideDup : SvgNode :=
  SvgNode.elem "g" (some "sozi-wrapper-0-0") none [SvgNode.textNode]

/-- A presentation holding a single selected frame. -/
def oneSelPres : Presentation Nat :=
  { id := 0, layers := [],
    frames := [{ id := 1, frameId := "frame1", title := "New frame",
                 selected := true, state := 0 }],
    svgChildren := [] }

/-- A presentation with no layers and no frames. -/
def emptyPres : Presentation Nat :=
  { id := 0, layers := [], frames := [], svgChildren := [] }

/-! Decimal representation lemmas. -/

theorem toDigitsCore_eq_decDigits :
    ∀ (f n : Nat) (ds : List Char), n < f →
      Nat.toDigitsCore 10 f n ds = decDigits n ++ ds := by
  intro f
  induction f with
  | zero => intro n ds h; omega
  | succ f ih =>
    intro n ds _
    show (if n / 10 = 0 then Nat.digitChar (n % 10) :: ds
          else Nat.toDigitsCore 10 f (n / 10) (Nat.digitChar (n % 10) :: ds))
        = decDigits n ++ ds
    by_cases h10 : n / 10 = 0
    · have hn : n < 10 := (Nat.div_eq_zero_iff (by norm_num)).mp h10
      rw [if_pos h10, decDigits, if_pos hn, Nat.mod_eq_of_lt hn]
      rfl
    · have hn : ¬ n < 10 := by
        intro hlt
        exact h10 ((Nat.div_eq_zero_iff (by norm_num)).mpr hlt)
      have hpos : 0 < n := by omega
      have hdivlt : n / 10 < f := by
        have h1 : n / 10 < n := Nat.div_lt_self hpos (by norm_num)
        omega
      have hdn : decDigits n = decDigits (n / 10) ++ [Nat.digitChar (n % 10)] := by
        conv_lhs => rw [decDigits]
        rw [if_neg hn]
      rw [if_neg h10, ih (n / 10) _ hdivlt, hdn, List.append_assoc]
      rfl

theorem repr_eq_decDigits (n : Nat) :
    Nat.repr n = (decDigits n).asString := by
  show (Nat.toDigitsCore 10 (n + 1) n []).asString = (decDigits n).asString
  rw [toDigitsCore_eq_decDigits (n + 1) n [] (Nat.lt_succ_self n),
    List.append_nil]

theorem digitVal_digitChar : ∀ n, n < 10 → digitVal (Nat.digitChar n) = n := by
  decide

theorem decDigits_decode :
    ∀ (n a : Nat),
      (decDigits n).foldl (fun acc c => 10 * acc + digitVal c) a
        = a * 10 ^ (decDigits n).length + n := by
  intro n
  induction n using Nat.strong_induction_on with
  | _ n ih =>
    intro a
    by_cases h : n < 10
    · rw [decDigits, if_pos h]
      simp [digitVal_digitChar n h]
      omega
    · rw [decDigits, if_neg h]
      have hpos : 0 < n := by omega
      have hlt : n / 10 < n := Nat.div_lt_self hpos (by norm_num)
      rw [List.foldl_append, ih (n / 10) hlt a, List.length_append]
      have hmod : digitVal (Nat.digitChar (n % 10)) = n % 10 :=
        digitVal_digitChar (n % 10) (Nat.mod_lt n (by norm_num))
      simp only [List.length_cons, List.length_nil, List.foldl_cons,
        List.foldl_nil, hmod]
      have hpow : 10 ^ ((decDigits (n / 10)).length + (0 + 1))
          = 10 ^ (decDigits (n / 10)).length * 10 := by
        rw [Nat.zero_add, Nat.pow_succ]
      rw [hpow, Nat.mul_add, ← Nat.mul_assoc, Nat.mul_comm 10 a,
        Nat.mul_assoc, Nat.mul_comm (10 ^ (decDigits (n / 10)).length) 10]
      omega

theorem decDigits_injective {m n : Nat} (h : decDigits m = decDigits n) :
    m = n := by
  have hm := decDigits_decode m 0
  have hn := decDigits_decode n 0
  rw [h] at hm
  omega

theorem nat_repr_injective {m n : Nat} (h : Nat.repr m = Nat.repr n) :
    m = n := by
  rw [repr_eq_decDigits, repr_eq_decDigits] at h
  exact decDigits_injective (congrArg String.data h)

theorem decDigits_length_pos (n : Nat) : 0 < (decDigits n).length := by
  rw [decDigits]
  by_cases h : n < 10
  · rw [if_pos h]; simp
  · rw [if_neg h]; simp

theorem repr_length_pos (n : Nat) : 0 < (Nat.repr n).length := by
  rw [repr_eq_decDigits]
  have h : ((decDigits n).asString).length = (decDigits n).length := rfl
  rw [h]
  exact decDigits_length_pos n

theorem wrapperId_length (p m : Nat) : 15 ≤ (wrapperId p m).length := by
  show 15 ≤ ((("sozi-wrapper-" ++ Nat.repr p) ++ "-") ++ Nat.repr m).length
  rw [String.length_append, String.length_append, String.length_append]
  have h1 := repr_length_pos p
  have h2 := repr_length_pos m
  have h3 : ("sozi-wrapper-" : String).length = 13 := rfl
  have h4 : ("-" : String).length = 1 := rfl
  omega

theorem ne_wrapperId_of_length_lt {s : String} (p m : Nat)
    (h : s.length < 15) : s ≠ wrapperId p m := by
  intro he
  have := wrapperId_length p m
  rw [← he] at this
  omega

theorem wrapperId_ne_empty (p m : Nat) : (wrapperId p m == "") = false := by
  have h : wrapperId p m ≠ "" := by
    intro he
    have := wrapperId_length p m
    rw [he] at this
    simp [String.length] at this
  simp [h]

theorem wrapperId_injective {p j k : Nat}
    (h : wrapperId p j = wrapperId p k) : j = k := by
  have hd := congrArg String.data h
  show j = k
  have hd' : ((("sozi-wrapper-" ++ Nat.repr p) ++ "-")).data
        ++ (Nat.repr j).data
      = ((("sozi-wrapper-" ++ Nat.repr p) ++ "-")).data
        ++ (Nat.repr k).data := by
    rw [← String.data_append, ← String.data_append]
    exact hd
  have hjk : (Nat.repr j).data = (Nat.repr k).data :=
    List.append_cancel_left hd'
  exact nat_repr_injective (String.ext hjk)

/-! Claim theorems: frames and selection operations. -/

/-- C1 (code-bug evidence): with exactly one selected frame, at index 0,
`addFrame` does insert the new frame (object id 2) at index 1, but it then
re-selects the old frame at index 0 and leaves the newly inserted frame
deselected — contradicting the claim that the new frame ends up selected
and every other frame deselected. -/
theorem c1_addFrame_reselects_old_frame :
    ((oneSelPres.addFrame 2 7).1.frames.map (fun f => f.id) = [1, 2]) ∧
    ((oneSelPres.addFrame 2 7).1.frames.map (fun f => f.selected)
      = [true, false]) ∧
    (oneSelPres.addFrame 2 7).2.1.id = 2 := by
  decide

/-- C2 (code-bug evidence): with exactly one selected frame, at index 0,
the "addFrame" notification is fired first, before the deselect-all and
select-one notifications, but it carries index 0 while the new frame was
inserted at index 1 — contradicting the claim that it carries the
insertion index. -/
theorem c2_addFrame_notification_carries_stale_index :
    ((oneSelPres.addFrame 2 7).2.2 =
      [PEvent.addFrameFired (mkFrame 2 7) 0,
       PEvent.deselectFrameFired 0, PEvent.deselectFrameFired 1,
       PEvent.selectFrameFired 0]) ∧
    ((oneSelPres.addFrame 2 7).1.frames.get? 1 = some (mkFrame 2 7)) := by
  decide

/-- C3: on the concrete scenario `[whitespace text, rect without id,
g#L1, circle, duplicate g#L1]` the pass yields, in tree order, an auto
wrapper holding the rect, the explicit layer "L1", and a second auto
wrapper holding the circle and the duplicate g; the text node is removed
and the layer map has exactly 3 entries. -/
theorem c3_concrete_scenario :
    (runLayerBuilder 0 scenarioChildren).out =
      [RootEntry.wrapper "sozi-wrapper-0-0" [rectNode],
       RootEntry.kept gL1,
       RootEntry.wrapper "sozi-wrapper-0-1" [circNode, gL1dup]] ∧
    (runLayerBuilder 0 scenarioChildren).layers =
      [("sozi-wrapper-0-0",
        { auto := true, selected := true, label := some "#sozi-wrapper-0-0",
          svgNode := SvgNode.elem "g" (some "sozi-wrapper-0-0") none
            [rectNode] }),
       ("L1", { auto := false, selected := true, label := some "#L1",
                svgNode := gL1 }),
       ("sozi-wrapper-0-1",
        { auto := true, selected := true, label := none,
          svgNode := SvgNode.elem "g" (some "sozi-wrapper-0-1") none
            [circNode, gL1dup] })] ∧
    (runLayerBuilder 0 scenarioChildren).layers.length = 3 :=
  ⟨rfl, rfl, rfl⟩

/-- C8: selection operations referencing an unknown layer id or an
out-of-range frame index fail fast with an invalid-reference error rather
than silently doing nothing. -/
theorem c8_unknown_reference_fails_fast {σ : Type} (p : Presentation σ)
    (layerId : String) (frameIndex : Nat)
    (hl : objGet p.layers layerId = none)
    (hf : p.frames.length ≤ frameIndex) :
    (p.selectLayer layerId).1 = Except.error OpError.invalidReference ∧
    (p.deselectLayer layerId).1 = Except.error OpError.invalidReference ∧
    (p.selectFrame frameIndex).1 = Except.error OpError.invalidReference ∧
    (p.deselectFrame frameIndex).1 = Except.error OpError.invalidReference := by
  have hg : p.frames[frameIndex]? = none := List.getElem?_eq_none hf
  have hg2 : p.frames.get? frameIndex = none := by
    rw [List.get?_eq_getElem?, hg]
  refine ⟨?_, ?_, ?_, ?_⟩ <;>
    simp [Presentation.selectLayer, Presentation.deselectLayer,
      Presentation.selectFrame, Presentation.deselectFrame, hl, hg, hg2]

/-- Witness for C8 at a concrete presentation. -/
theorem c8_unknown_reference_fails_fast_witness :
    objGet emptyPres.layers "missing" = none ∧
    emptyPres.frames.length ≤ 0 ∧
    ((emptyPres.selectLayer "missing").1
        = Except.error OpError.invalidReference ∧
     (emptyPres.deselectLayer "missing").1
        = Except.error OpError.invalidReference ∧
     (emptyPres.selectFrame 0).1 = Except.error OpError.invalidReference ∧
     (emptyPres.deselectFrame 0).1 = Except.error OpError.invalidReference) :=
  ⟨rfl, by decide,
   c8_unknown_reference_fails_fast emptyPres "missing" 0 rfl (by decide)⟩

/-- C9: a selection operation invoked with an unknown layer id or an
out-of-range frame index fails before mutating any selection flag and
before firing any notification: the presentation is returned exactly as it
was and the fired-event list is empty. -/
theorem c9_failed_selection_preserves_state {σ : Type} (p : Presentation σ)
    (layerId : String) (frameIndex : Nat)
    (hl : objGet p.layers layerId = none)
    (hf : p.frames.length ≤ frameIndex) :
    p.selectLayer layerId = (Except.error OpError.invalidReference, p, []) ∧
    p.deselectLayer layerId
      = (Except.error OpError.invalidReference, p, []) ∧
    p.selectFrame frameIndex
      = (Except.error OpError.invalidReference, p, []) ∧
    p.deselectFrame frameIndex
      = (Except.error OpError.invalidReference, p, []) := by
  have hg : p.frames[frameIndex]? = none := List.getElem?_eq_none hf
  have hg2 : p.frames.get? frameIndex = none := by
    rw [List.get?_eq_getElem?, hg]
  refine ⟨?_, ?_, ?_, ?_⟩ <;>
    simp [Presentation.selectLayer, Presentation.deselectLayer,
      Presentation.selectFrame, Presentation.deselectFrame, hl, hg, hg2]

/-- Witness for C9 at a concrete presentation with one frame and an
out-of-range index. -/
theorem c9_failed_selection_preserves_state_witness :
    objGet oneSelPres.layers "ghost" = none ∧
    oneSelPres.frames.length ≤ 5 ∧
    (oneSelPres.selectLayer "ghost"
        = (Except.error OpError.invalidReference, oneSelPres, []) ∧
     oneSelPres.deselectLayer "ghost"
        = (Except.error OpError.invalidReference, oneSelPres, []) ∧
     oneSelPres.selectFrame 5
        = (Except.error OpError.invalidReference, oneSelPres, []) ∧
     oneSelPres.deselectFrame 5
        = (Except.error OpError.invalidReference, oneSelPres, [])) :=
  ⟨rfl, by decide,
   c9_failed_selection_preserves_state oneSelPres "ghost" 5 rfl (by decide)⟩


/-! Order preservation (C4): the drawable contents of the produced root
children, concatenated in tree order, are the drawable children of the
input in their original order. -/

theorem outContents_append (a b : List RootEntry) :
    outContents (a ++ b) = outContents a ++ outContents b := by
  simp [outContents]

theorem step_contents (p : Nat) (st : BuildState) (n : SvgNode) :
    outContents (initStep p st n).out ++ (initStep p st n).wrapperChildren
      = (outContents st.out ++ st.wrapperChildren)
        ++ (if isDrawable n then [n] else []) := by
  cases n with
  | textNode => simp [initStep, isDrawable]
  | elem ln ia il ch =>
    have hdraw : isDrawable (SvgNode.elem ln ia il ch)
        = DRAWABLE_TAGS.contains (lowerStr ln) := rfl
    by_cases hdr : DRAWABLE_TAGS.contains (lowerStr ln) = true
    · have hmem : lowerStr ln ∈ DRAWABLE_TAGS := by simpa using hdr
      by_cases hq : ((lowerStr ln == "g" && attrTruthy ia)
          && !objHas st.layers (ia.getD "")) = true
      · by_cases hw : st.wrapperChildren.isEmpty = true
        · have hwe : st.wrapperChildren = [] := List.isEmpty_iff.mp hw
          simp [initStep, hdr, hmem, hq, hw, hwe, outContents_append,
            outContents, entryContents, hdraw]
        · simp [initStep, hdr, hmem, hq, hw, outContents_append,
            outContents, entryContents, hdraw, List.append_assoc]
      · simp [initStep, hdr, hmem, hq, hdraw, List.append_assoc]
    · have hmem : lowerStr ln ∉ DRAWABLE_TAGS := by
        intro hm
        exact hdr (by simpa using hm)
      simp [initStep, hdr, hmem, hdraw, outContents_append, outContents,
        entryContents]

theorem fold_contents (p : Nat) (l : List SvgNode) : ∀ st : BuildState,
    outContents (l.foldl (initStep p) st).out
        ++ (l.foldl (initStep p) st).wrapperChildren
      = (outContents st.out ++ st.wrapperChildren) ++ l.filter isDrawable := by
  induction l with
  | nil => intro st; simp
  | cons a l ih =>
    intro st
    rw [List.foldl_cons, ih (initStep p st a), step_contents]
    by_cases h : isDrawable a = true
    · simp [List.filter_cons, h, List.append_assoc]
    · simp [List.filter_cons, h]

theorem finish_contents (p : Nat) (st : BuildState) :
    outContents (finishPass p st).out
      = outContents st.out ++ st.wrapperChildren := by
  by_cases h : st.wrapperChildren.isEmpty = true
  · have hwe : st.wrapperChildren = [] := List.isEmpty_iff.mp h
    simp [finishPass, h, hwe]
  · simp [finishPass, h, outContents_append, outContents, entryContents]

/-- C4: for every input tree, the drawable contents of the resulting root
children (each synthesized wrapper contributing the nodes moved into it,
each explicit layer node contributing itself), concatenated in tree order,
equal the drawable children of the input in their original relative order:
no two drawable nodes exchange positions, they are only grouped. -/
theorem c4_order_preservation (presId : Nat) (children : List SvgNode) :
    outContents (runLayerBuilder presId children).out
      = children.filter isDrawable := by
  have h := fold_contents presId children initState
  show outContents (finishPass presId (buildPass presId children)).out = _
  rw [finish_contents]
  simpa [buildPass, initState, outContents] using h

/-! Wrapper collapsing (C5): the auto layers registered by the pass are, in
order, exactly the maximal runs of consecutive non-qualifying drawables. -/

theorem objHas_objSet (m : List (String × Layer)) (k : String) (v : Layer)
    (i : String) : objHas (objSet m k v) i = (objHas m i || i == k) := by
  unfold objSet
  by_cases h : m.any (fun e => e.1 == k) = true
  · rw [if_pos h]
    have hmap : objHas (m.map (fun e => if e.1 == k then (e.1, v) else e)) i
        = objHas m i := by
      unfold objHas
      rw [List.any_map]
      have hfun : ((fun (e : String × Layer) => e.1 == i)
            ∘ fun e => if e.1 == k then (e.1, v) else e)
          = (fun (e : String × Layer) => e.1 == i) := by
        funext e
        by_cases he : (e.1 == k) = true <;> simp [Function.comp, he]
      rw [hfun]
    rw [hmap]
    by_cases hik : i = k
    · subst hik
      have hh : objHas m i = true := h
      simp [hh]
    · have hb : (i == k) = false := by simp [hik]
      simp [hb]
  · rw [if_neg h]
    unfold objHas
    rw [List.any_append]
    simp [BEq.comm]

theorem idsHas_append (l1 l2 : List String) (i : String) :
    idsHas (l1 ++ l2) i = (idsHas l1 i || idsHas l2 i) := by
  unfold idsHas
  rw [List.any_append]

theorem autoRuns_append (t1 t2 : List (String × Layer)) :
    autoRuns (t1 ++ t2) = autoRuns t1 ++ autoRuns t2 := by
  unfold autoRuns
  rw [List.filter_append, List.map_append]

/-! Branch equations for the step functions, used to reason about the pass
deterministically. -/

theorem initStep_textNode (p : Nat) (st : BuildState) :
    initStep p st SvgNode.textNode = st := rfl

theorem initStep_nondrawable (p : Nat) (st : BuildState) (ln : String)
    (ia il : Option String) (ch : List SvgNode)
    (hdr : DRAWABLE_TAGS.contains (lowerStr ln) = false) :
    initStep p st (SvgNode.elem ln ia il ch)
      = { st with
          out := st.out ++ [RootEntry.kept (SvgNode.elem ln ia il ch)] } := by
  have hdr' : ¬ DRAWABLE_TAGS.contains (lowerStr ln) = true := by
    rw [hdr]
    decide
  simp only [initStep]
  rw [if_neg hdr']

theorem initStep_absorb (p : Nat) (st : BuildState) (ln : String)
    (ia il : Option String) (ch : List SvgNode)
    (hdr : DRAWABLE_TAGS.contains (lowerStr ln) = true)
    (hq : ((lowerStr ln == "g" && attrTruthy ia)
        && !objHas st.layers (ia.getD "")) = false) :
    initStep p st (SvgNode.elem ln ia il ch)
      = { st with wrapperChildren :=
            st.wrapperChildren ++ [SvgNode.elem ln ia il ch] } := by
  have hq' : ¬ ((lowerStr ln == "g" && attrTruthy ia)
      && !objHas st.layers (ia.getD "")) = true := by
    rw [hq]
    decide
  simp only [initStep]
  rw [if_pos hdr, if_neg hq']

theorem initStep_qualify_noflush (p : Nat) (st : BuildState) (ln : String)
    (ia il : Option String) (ch : List SvgNode)
    (hq : ((lowerStr ln == "g" && attrTruthy ia)
        && !objHas st.layers (ia.getD "")) = true)
    (hw : st.wrapperChildren.isEmpty = true) :
    initStep p st (SvgNode.elem ln ia il ch)
      = { st with
          out := st.out ++ [RootEntry.kept (SvgNode.elem ln ia il ch)],
          layers := objSet st.layers (ia.getD "")
            (explicitLayerOf (SvgNode.elem ln ia il ch) (ia.getD "") il),
          trace := st.trace ++ [(ia.getD "",
            explicitLayerOf (SvgNode.elem ln ia il ch) (ia.getD "") il)] } := by
  have hdr : DRAWABLE_TAGS.contains (lowerStr ln) = true := by
    have hg : (lowerStr ln == "g") = true := by
      have := hq
      simp only [Bool.and_eq_true] at this
      exact this.1.1
    have hg' : lowerStr ln = "g" := by simpa using hg
    rw [hg']
    rfl
  simp only [initStep]
  rw [if_pos hdr, if_pos hq, if_pos hw]

theorem initStep_qualify_flush (p : Nat) (st : BuildState) (ln : String)
    (ia il : Option String) (ch : List SvgNode)
    (hq : ((lowerStr ln == "g" && attrTruthy ia)
        && !objHas st.layers (ia.getD "")) = true)
    (hw : st.wrapperChildren.isEmpty = false) :
    initStep p st (SvgNode.elem ln ia il ch)
      = { st with
          out := (st.out ++ [RootEntry.wrapper (wrapperId p st.wrapperCount)
              st.wrapperChildren])
            ++ [RootEntry.kept (SvgNode.elem ln ia il ch)],
          layers := objSet
            (objSet st.layers (wrapperId p st.wrapperCount)
              (autoLayerOf (wrapperId p st.wrapperCount) st.wrapperChildren))
            (ia.getD "")
            (explicitLayerOf (SvgNode.elem ln ia il ch) (ia.getD "") il),
          trace := (st.trace ++ [(wrapperId p st.wrapperCount,
              autoLayerOf (wrapperId p st.wrapperCount) st.wrapperChildren)])
            ++ [(ia.getD "",
              explicitLayerOf (SvgNode.elem ln ia il ch) (ia.getD "") il)],
          wrapperCount := st.wrapperCount + 1,
          wrapperChildren := [] } := by
  have hdr : DRAWABLE_TAGS.contains (lowerStr ln) = true := by
    have hg : (lowerStr ln == "g") = true := by
      have := hq
      simp only [Bool.and_eq_true] at this
      exact this.1.1
    have hg' : lowerStr ln = "g" := by simpa using hg
    rw [hg']
    rfl
  have hw' : ¬ st.wrapperChildren.isEmpty = true := by
    rw [hw]
    decide
  simp only [initStep]
  rw [if_pos hdr, if_pos hq, if_neg hw']

theorem finishPass_empty (p : Nat) (st : BuildState)
    (hw : st.wrapperChildren.isEmpty = true) :
    finishPass p st = st := by
  simp only [finishPass]
  rw [if_pos hw]

theorem finishPass_flush (p : Nat) (st : BuildState)
    (hw : st.wrapperChildren.isEmpty = false) :
    finishPass p st
      = { st with
          out := st.out ++ [RootEntry.wrapper (wrapperId p st.wrapperCount)
            st.wrapperChildren],
          layers := objSet st.layers (wrapperId p st.wrapperCount)
            (finalAutoLayerOf (wrapperId p st.wrapperCount)
              st.wrapperChildren),
          trace := st.trace ++ [(wrapperId p st.wrapperCount,
            finalAutoLayerOf (wrapperId p st.wrapperCount)
              st.wrapperChildren)],
          wrapperChildren := [] } := by
  have hw' : ¬ st.wrapperChildren.isEmpty = true := by
    rw [hw]
    decide
  simp only [finishPass]
  rw [if_neg hw']

theorem specRunsStep_nondrawable (p : Nat) (rs : RunsState) (ln : String)
    (ia il : Option String) (ch : List SvgNode)
    (hdr : DRAWABLE_TAGS.contains (lowerStr ln) = false) :
    specRunsStep p rs (SvgNode.elem ln ia il ch) = rs := by
  have hdr' : ¬ DRAWABLE_TAGS.contains (lowerStr ln) = true := by
    rw [hdr]
    decide
  simp only [specRunsStep]
  rw [if_neg hdr']

theorem specRunsStep_absorb (p : Nat) (rs : RunsState) (ln : String)
    (ia il : Option String) (ch : List SvgNode)
    (hdr : DRAWABLE_TAGS.contains (lowerStr ln) = true)
    (hsq : specQualifies rs.ids (SvgNode.elem ln ia none []) = false) :
    specRunsStep p rs (SvgNode.elem ln ia il ch)
      = { rs with run := rs.run ++ [SvgNode.elem ln ia il ch] } := by
  have hsq' : ¬ specQualifies rs.ids (SvgNode.elem ln ia none []) = true := by
    rw [hsq]
    decide
  simp only [specRunsStep]
  rw [if_pos hdr, if_neg hsq']

theorem specRunsStep_qualify_norun (p : Nat) (rs : RunsState) (ln : String)
    (ia il : Option String) (ch : List SvgNode)
    (hdr : DRAWABLE_TAGS.contains (lowerStr ln) = true)
    (hsq : specQualifies rs.ids (SvgNode.elem ln ia none []) = true)
    (hre : rs.run.isEmpty = true) :
    specRunsStep p rs (SvgNode.elem ln ia il ch)
      = { rs with ids := rs.ids ++ [ia.getD ""] } := by
  simp only [specRunsStep]
  rw [if_pos hdr, if_pos hsq, if_pos hre]

theorem specRunsStep_qualify_run (p : Nat) (rs : RunsState) (ln : String)
    (ia il : Option String) (ch : List SvgNode)
    (hdr : DRAWABLE_TAGS.contains (lowerStr ln) = true)
    (hsq : specQualifies rs.ids (SvgNode.elem ln ia none []) = true)
    (hre : rs.run.isEmpty = false) :
    specRunsStep p rs (SvgNode.elem ln ia il ch)
      = { rs with
          runs := rs.runs ++ [rs.run],
          ids := (rs.ids ++ [wrapperId p rs.wrapperCount]) ++ [ia.getD ""],
          wrapperCount := rs.wrapperCount + 1,
          run := [] } := by
  have hre' : ¬ rs.run.isEmpty = true := by
    rw [hre]
    decide
  simp only [specRunsStep]
  rw [if_pos hdr, if_pos hsq, if_neg hre']

theorem corr_step (p : Nat) (st : BuildState) (rs : RunsState) (n : SvgNode)
    (hids : ∀ k, objHas st.layers k = idsHas rs.ids k)
    (hwc : st.wrapperCount = rs.wrapperCount)
    (hrun : st.wrapperChildren = rs.run)
    (hruns : autoRuns st.trace = rs.runs) :
    (∀ k, objHas (initStep p st n).layers k
        = idsHas (specRunsStep p rs n).ids k) ∧
    (initStep p st n).wrapperCount = (specRunsStep p rs n).wrapperCount ∧
    (initStep p st n).wrapperChildren = (specRunsStep p rs n).run ∧
    autoRuns (initStep p st n).trace = (specRunsStep p rs n).runs := by
  cases n with
  | textNode => exact ⟨hids, hwc, hrun, hruns⟩
  | elem ln ia il ch =>
    by_cases hdr : DRAWABLE_TAGS.contains (lowerStr ln) = true
    · by_cases hq : ((lowerStr ln == "g" && attrTruthy ia)
          && !objHas st.layers (ia.getD "")) = true
      · have hsq : specQualifies rs.ids (SvgNode.elem ln ia none []) = true := by
          show ((lowerStr ln == "g" && attrTruthy ia)
              && !idsHas rs.ids (ia.getD "")) = true
          rw [← hids (ia.getD "")]
          exact hq
        by_cases hw : st.wrapperChildren.isEmpty = true
        · have hre : rs.run.isEmpty = true := by rw [← hrun]; exact hw
          rw [initStep_qualify_noflush p st ln ia il ch hq hw,
            specRunsStep_qualify_norun p rs ln ia il ch hdr hsq hre]
          refine ⟨?_, hwc, hrun, ?_⟩
          · intro k
            show objHas (objSet st.layers (ia.getD "") _) k
                = idsHas (rs.ids ++ [ia.getD ""]) k
            rw [objHas_objSet, idsHas_append, hids k]
            simp [idsHas, BEq.comm]
          · show autoRuns (st.trace ++ [(ia.getD "", _)]) = rs.runs
            rw [autoRuns_append, hruns]
            simp [autoRuns, explicitLayerOf]
        · have hwF : st.wrapperChildren.isEmpty = false :=
            eq_false_of_ne_true hw
          have hre : rs.run.isEmpty = false := by rw [← hrun]; exact hwF
          rw [initStep_qualify_flush p st ln ia il ch hq hwF,
            specRunsStep_qualify_run p rs ln ia il ch hdr hsq hre]
          refine ⟨?_, ?_, rfl, ?_⟩
          · intro k
            show objHas (objSet (objSet st.layers (wrapperId p st.wrapperCount)
                  _) (ia.getD "") _) k
              = idsHas ((rs.ids ++ [wrapperId p rs.wrapperCount])
                  ++ [ia.getD ""]) k
            rw [objHas_objSet, objHas_objSet, idsHas_append, idsHas_append,
              hids k, hwc]
            simp [idsHas, BEq.comm, Bool.or_assoc]
          · show st.wrapperCount + 1 = rs.wrapperCount + 1
            rw [hwc]
          · show autoRuns ((st.trace ++ [(wrapperId p st.wrapperCount,
                autoLayerOf (wrapperId p st.wrapperCount)
                  st.wrapperChildren)]) ++ [(ia.getD "", _)])
              = rs.runs ++ [rs.run]
            rw [autoRuns_append, autoRuns_append, hruns]
            simp [autoRuns, autoLayerOf, explicitLayerOf, nodeKids, hrun]
      · have hqF : ((lowerStr ln == "g" && attrTruthy ia)
            && !objHas st.layers (ia.getD "")) = false :=
          eq_false_of_ne_true hq
        have hsq : specQualifies rs.ids (SvgNode.elem ln ia none [])
            = false := by
          show ((lowerStr ln == "g" && attrTruthy ia)
              && !idsHas rs.ids (ia.getD "")) = false
          rw [← hids (ia.getD "")]
          exact hqF
        rw [initStep_absorb p st ln ia il ch hdr hqF,
          specRunsStep_absorb p rs ln ia il ch hdr hsq]
        exact ⟨hids, hwc, by rw [hrun], hruns⟩
    · have hdrF : DRAWABLE_TAGS.contains (lowerStr ln) = false :=
        eq_false_of_ne_true hdr
      rw [initStep_nondrawable p st ln ia il ch hdrF,
        specRunsStep_nondrawable p rs ln ia il ch hdrF]
      exact ⟨hids, hwc, hrun, hruns⟩

theorem corr_fold (p : Nat) (l : List SvgNode) :
    ∀ (st : BuildState) (rs : RunsState),
      (∀ k, objHas st.layers k = idsHas rs.ids k) →
      st.wrapperCount = rs.wrapperCount →
      st.wrapperChildren = rs.run →
      autoRuns st.trace = rs.runs →
      (∀ k, objHas (l.foldl (initStep p) st).layers k
          = idsHas (l.foldl (specRunsStep p) rs).ids k) ∧
      (l.foldl (initStep p) st).wrapperCount
        = (l.foldl (specRunsStep p) rs).wrapperCount ∧
      (l.foldl (initStep p) st).wrapperChildren
        = (l.foldl (specRunsStep p) rs).run ∧
      autoRuns (l.foldl (initStep p) st).trace
        = (l.foldl (specRunsStep p) rs).runs := by
  induction l with
  | nil => intro st rs h1 h2 h3 h4; exact ⟨h1, h2, h3, h4⟩
  | cons a l ih =>
    intro st rs h1 h2 h3 h4
    rw [List.foldl_cons, List.foldl_cons]
    obtain ⟨g1, g2, g3, g4⟩ := corr_step p st rs a h1 h2 h3 h4
    exact ih (initStep p st a) (specRunsStep p rs a) g1 g2 g3 g4

/-- C5: for every input tree, the contents of the auto layers registered by
the pass, in registration (tree) order, are exactly the maximal runs of
consecutive non-qualifying drawable children: each maximal run is placed in
exactly one synthesized wrapper, registered as exactly one auto layer, and
no wrapper is split across a run. -/
theorem c5_wrapper_collapsing (presId : Nat) (children : List SvgNode) :
    autoRuns (runLayerBuilder presId children).trace
      = specMaximalRuns presId children := by
  obtain ⟨g1, g2, g3, g4⟩ := corr_fold presId children initState
    { ids := [], wrapperCount := 0, run := [], runs := [] }
    (fun k => rfl) rfl rfl rfl
  have g3' : (buildPass presId children).wrapperChildren
      = (children.foldl (specRunsStep presId)
          { ids := [], wrapperCount := 0, run := [], runs := [] }).run := g3
  have g4' : autoRuns (buildPass presId children).trace
      = (children.foldl (specRunsStep presId)
          { ids := [], wrapperCount := 0, run := [], runs := [] }).runs := g4
  show autoRuns (finishPass presId (buildPass presId children)).trace = _
  simp only [specMaximalRuns]
  by_cases h : (buildPass presId children).wrapperChildren.isEmpty = true
  · have hrunE : (children.foldl (specRunsStep presId)
        { ids := [], wrapperCount := 0, run := [], runs := [] }).run.isEmpty
        = true := by
      rw [← g3']
      exact h
    rw [finishPass_empty presId _ h, if_pos hrunE]
    exact g4'
  · have hwF : (buildPass presId children).wrapperChildren.isEmpty = false :=
      eq_false_of_ne_true h
    have hrunE : ¬ (children.foldl (specRunsStep presId)
        { ids := [], wrapperCount := 0, run := [], runs := [] }).run.isEmpty
        = true := by
      rw [← g3', hwF]
      decide
    rw [finishPass_flush presId _ hwF, if_neg hrunE, autoRuns_append, g4']
    have hlast : autoRuns [(wrapperId presId
          (buildPass presId children).wrapperCount,
        finalAutoLayerOf (wrapperId presId
            (buildPass presId children).wrapperCount)
          (buildPass presId children).wrapperChildren)]
        = [(buildPass presId children).wrapperChildren] := by
      simp [autoRuns, finalAutoLayerOf, nodeKids]
    rw [hlast, g3']

/-! Labels of registered auto layers (C10). -/

theorem initStep_trace_shape (p : Nat) (st : BuildState) (n : SvgNode) :
    (initStep p st n).trace = st.trace
      ∨ (∃ i L, (initStep p st n).trace = st.trace ++ [(i, L)]
          ∧ L.auto = false)
      ∨ (∃ w wch i L, (initStep p st n).trace
          = (st.trace ++ [(w, autoLayerOf w wch)]) ++ [(i, L)]
          ∧ L.auto = false) := by
  cases n with
  | textNode => exact Or.inl rfl
  | elem ln ia il ch =>
    by_cases hdr : DRAWABLE_TAGS.contains (lowerStr ln) = true
    · by_cases hq : ((lowerStr ln == "g" && attrTruthy ia)
          && !objHas st.layers (ia.getD "")) = true
      · by_cases hw : st.wrapperChildren.isEmpty = true
        · refine Or.inr (Or.inl ⟨ia.getD "",
            explicitLayerOf (SvgNode.elem ln ia il ch) (ia.getD "") il,
            ?_, rfl⟩)
          rw [initStep_qualify_noflush p st ln ia il ch hq hw]
        · refine Or.inr (Or.inr ⟨wrapperId p st.wrapperCount,
            st.wrapperChildren, ia.getD "",
            explicitLayerOf (SvgNode.elem ln ia il ch) (ia.getD "") il,
            ?_, rfl⟩)
          rw [initStep_qualify_flush p st ln ia il ch hq
            (eq_false_of_ne_true hw)]
      · rw [initStep_absorb p st ln ia il ch hdr (eq_false_of_ne_true hq)]
        exact Or.inl rfl
    · rw [initStep_nondrawable p st ln ia il ch (eq_false_of_ne_true hdr)]
      exact Or.inl rfl

theorem fold_trace_auto_label (p : Nat) (l : List SvgNode) :
    ∀ st : BuildState,
      (∀ e ∈ st.trace, e.2.auto = true → e.2.label = some ("#" ++ e.1)) →
      ∀ e ∈ (l.foldl (initStep p) st).trace, e.2.auto = true →
        e.2.label = some ("#" ++ e.1) := by
  induction l with
  | nil => intro st hst; exact hst
  | cons a l ih =>
    intro st hst
    rw [List.foldl_cons]
    apply ih
    intro e he ha
    rcases initStep_trace_shape p st a with h | ⟨i, L, h, hL⟩
      | ⟨w, wch, i, L, h, hL⟩
    · rw [h] at he
      exact hst e he ha
    · rw [h] at he
      rcases List.mem_append.mp he with h1 | h2
      · exact hst e h1 ha
      · have he2 : e = (i, L) := by simpa using h2
        rw [he2] at ha
        rw [hL] at ha
        exact absurd ha (by decide)
    · rw [h] at he
      rcases List.mem_append.mp he with h1 | h2
      · rcases List.mem_append.mp h1 with h3 | h4
        · exact hst e h3 ha
        · have he2 : e = (w, autoLayerOf w wch) := by simpa using h4
          rw [he2]
          rfl
      · have he2 : e = (i, L) := by simpa using h2
        rw [he2] at ha
        rw [hL] at ha
        exact absurd ha (by decide)

/-- C10: every auto layer registered during the pass carries the label
`"#" + wrapperId`, whereas the auto layer registered for the final wrapper
(when that wrapper holds at least one child) is recorded with `auto`,
`selected` and the node reference but no `label` field; hence not every
registered layer has a label. -/
theorem c10_final_wrapper_unlabeled (presId : Nat) (children : List SvgNode) :
    (∀ e ∈ (buildPass presId children).trace, e.2.auto = true →
        e.2.label = some ("#" ++ e.1)) ∧
    ((buildPass presId children).wrapperChildren.isEmpty = false →
      ∃ wl : Layer, (runLayerBuilder presId children).trace
          = (buildPass presId children).trace
            ++ [(wrapperId presId (buildPass presId children).wrapperCount,
                 wl)]
        ∧ wl.auto = true ∧ wl.selected = true ∧ wl.label = none) := by
  constructor
  · apply fold_trace_auto_label
    intro e he
    exact absurd he (by simp [initState])
  · intro hw
    refine ⟨finalAutoLayerOf (wrapperId presId
        (buildPass presId children).wrapperCount)
      (buildPass presId children).wrapperChildren, ?_, rfl, rfl, rfl⟩
    show (finishPass presId (buildPass presId children)).trace = _
    rw [finishPass_flush presId _ hw]

/-- Witness for C10 on the concrete scenario: the final wrapper layer is
registered (under the id `sozi-wrapper-0-1`) without a label. -/
theorem c10_final_wrapper_unlabeled_witness :
    (buildPass 0 scenarioChildren).wrapperChildren.isEmpty = false ∧
    (∃ wl : Layer, (runLayerBuilder 0 scenarioChildren).trace
        = (buildPass 0 scenarioChildren).trace ++ [("sozi-wrapper-0-1", wl)]
      ∧ wl.auto = true ∧ wl.selected = true ∧ wl.label = none) :=
  ⟨rfl, (c10_final_wrapper_unlabeled 0 scenarioChildren).2 rfl⟩

/-! Duplicate-id policy (C6): relating the layer map to the registration
trace. -/

theorem objHas_isSome_objGet (m : List (String × Layer)) (i : String) :
    objHas m i = (objGet m i).isSome := by
  unfold objHas objGet
  induction m with
  | nil => rfl
  | cons e m ih =>
    by_cases he : (e.1 == i) = true <;>
      simp [List.find?_cons, List.any_cons, he, ih]

theorem objGet_none_of_not_has (m : List (String × Layer)) (i : String)
    (h : objHas m i = false) : objGet m i = none := by
  rw [objHas_isSome_objGet] at h
  cases hg : objGet m i with
  | none => rfl
  | some v =>
    rw [hg] at h
    exact Bool.noConfusion h

theorem find?_map_objSet (m : List (String × Layer)) (k : String) (v : Layer)
    (i : String) (h : (i == k) = false) :
    (m.map (fun e => if e.1 == k then (e.1, v) else e)).find?
        (fun e => e.1 == i)
      = m.find? (fun e => e.1 == i) := by
  have hcomp : ((fun (e : String × Layer) => e.1 == i)
        ∘ (fun e => if e.1 == k then (e.1, v) else e))
      = (fun (e : String × Layer) => e.1 == i) := by
    funext e
    by_cases he : (e.1 == k) = true <;> simp [Function.comp, he]
  rw [List.find?_map, hcomp]
  cases hf : m.find? (fun e => e.1 == i) with
  | none => rfl
  | some e =>
    have hqe : (e.1 == i) = true := by simpa using List.find?_some hf
    have hek : (e.1 == k) = false := by
      by_cases hq : (e.1 == k) = true
      · exfalso
        have h1 : e.1 = i := eq_of_beq hqe
        have h2 : e.1 = k := eq_of_beq hq
        rw [← h1, ← h2] at h
        simp at h
      · exact eq_false_of_ne_true hq
    simp only [Option.map_some']
    rw [if_neg (show ¬ (e.1 == k) = true by rw [hek]; decide)]

theorem objGet_objSet_ne (m : List (String × Layer)) (k : String) (v : Layer)
    (i : String) (h : (i == k) = false) :
    objGet (objSet m k v) i = objGet m i := by
  unfold objSet
  by_cases hm : m.any (fun e => e.1 == k) = true
  · rw [if_pos hm]
    unfold objGet
    rw [find?_map_objSet m k v i h]
  · rw [if_neg hm]
    unfold objGet
    rw [List.find?_append]
    have hki : (k == i) = false := by
      by_cases hq : (k == i) = true
      · exfalso
        have := eq_of_beq hq
        rw [this] at h
        simp at h
      · exact eq_false_of_ne_true hq
    simp [List.find?_cons, hki]

theorem objGet_objSet_fresh (m : List (String × Layer)) (k : String)
    (v : Layer) (h : objHas m k = false) :
    objGet (objSet m k v) k = some v := by
  unfold objSet
  have hm : m.any (fun e => e.1 == k) = false := h
  rw [if_neg (by rw [hm]; decide)]
  unfold objGet
  rw [List.find?_append]
  have hnone : m.find? (fun e => e.1 == k) = none := by
    apply List.find?_eq_none.mpr
    intro x hx hpx
    have hh : m.any (fun e => e.1 == k) = true :=
      List.any_eq_true.mpr ⟨x, hx, hpx⟩
    rw [hm] at hh
    exact Bool.noConfusion hh
  rw [hnone]
  simp [List.find?_cons]

theorem AB_extend (m t : List (String × Layer)) (k : String) (v : Layer)
    (i : String)
    (hA : objGet m i = (t.find? (fun e => e.1 == i)).map (fun e => e.2))
    (hB : (t.filter (fun e => e.1 == i)).length ≤ 1)
    (hfresh : (i == k) = true → objHas m k = false) :
    objGet (objSet m k v) i
        = ((t ++ [(k, v)]).find? (fun e => e.1 == i)).map (fun e => e.2) ∧
    ((t ++ [(k, v)]).filter (fun e => e.1 == i)).length ≤ 1 := by
  by_cases hik : (i == k) = true
  · have hieq : i = k := eq_of_beq hik
    subst hieq
    have hf : objHas m i = false := hfresh hik
    have hgn : objGet m i = none := objGet_none_of_not_has m i hf
    have hmn : (t.find? (fun e => e.1 == i)).map (fun e => e.2) = none := by
      rw [← hA]
      exact hgn
    have hfn : t.find? (fun e => e.1 == i) = none :=
      Option.map_eq_none'.mp hmn
    have hfilnil : t.filter (fun e => e.1 == i) = [] := by
      apply List.filter_eq_nil_iff.mpr
      exact List.find?_eq_none.mp hfn
    constructor
    · rw [objGet_objSet_fresh m i v hf, List.find?_append, hfn]
      simp [List.find?_cons]
    · rw [List.filter_append, hfilnil]
      simp
  · have hikF : (i == k) = false := eq_false_of_ne_true hik
    have hki : (k == i) = false := by
      by_cases hq : (k == i) = true
      · exfalso
        have := eq_of_beq hq
        rw [this] at hikF
        simp at hikF
      · exact eq_false_of_ne_true hq
    constructor
    · rw [objGet_objSet_ne m k v i hikF, List.find?_append]
      have hsing : ([(k, v)] : List (String × Layer)).find?
          (fun e => e.1 == i) = none := by
        simp [List.find?_cons, hki]
      rw [hsing]
      simp [hA]
    · rw [List.filter_append]
      have hsing : ([(k, v)] : List (String × Layer)).filter
          (fun e => e.1 == i) = [] := by
        simp [hki]
      rw [hsing]
      simpa using hB

theorem step_layers_trace (p : Nat) (i : String)
    (hi : ∀ n, (i == wrapperId p n) = false)
    (st : BuildState) (n : SvgNode)
    (hA : objGet st.layers i
        = (st.trace.find? (fun e => e.1 == i)).map (fun e => e.2))
    (hB : (st.trace.filter (fun e => e.1 == i)).length ≤ 1) :
    objGet (initStep p st n).layers i
        = ((initStep p st n).trace.find? (fun e => e.1 == i)).map
            (fun e => e.2) ∧
    ((initStep p st n).trace.filter (fun e => e.1 == i)).length ≤ 1 := by
  cases n with
  | textNode => exact ⟨hA, hB⟩
  | elem ln ia il ch =>
    by_cases hdr : DRAWABLE_TAGS.contains (lowerStr ln) = true
    · by_cases hq : ((lowerStr ln == "g" && attrTruthy ia)
          && !objHas st.layers (ia.getD "")) = true
      · have hqO : objHas st.layers (ia.getD "") = false := by
          have h2 := hq
          simp only [Bool.and_eq_true, Bool.not_eq_true'] at h2
          exact h2.2
        by_cases hw : st.wrapperChildren.isEmpty = true
        · rw [initStep_qualify_noflush p st ln ia il ch hq hw]
          exact AB_extend st.layers st.trace (ia.getD "") _ i hA hB
            (fun _ => hqO)
        · rw [initStep_qualify_flush p st ln ia il ch hq
            (eq_false_of_ne_true hw)]
          have hwfree : (i == wrapperId p st.wrapperCount) = true
              → objHas st.layers (wrapperId p st.wrapperCount) = false := by
            intro hik
            exact absurd hik (by simp [hi st.wrapperCount])
          obtain ⟨hA1, hB1⟩ := AB_extend st.layers st.trace
            (wrapperId p st.wrapperCount)
            (autoLayerOf (wrapperId p st.wrapperCount) st.wrapperChildren)
            i hA hB hwfree
          apply AB_extend _ _ (ia.getD "") _ i hA1 hB1
          intro hik
          have hieq : i = ia.getD "" := eq_of_beq hik
          rw [objHas_objSet, hqO, ← hieq, hi st.wrapperCount]
          rfl
      · rw [initStep_absorb p st ln ia il ch hdr (eq_false_of_ne_true hq)]
        exact ⟨hA, hB⟩
    · rw [initStep_nondrawable p st ln ia il ch (eq_false_of_ne_true hdr)]
      exact ⟨hA, hB⟩

theorem fold_layers_trace (p : Nat) (i : String)
    (hi : ∀ n, (i == wrapperId p n) = false) (l : List SvgNode) :
    ∀ st : BuildState,
      objGet st.layers i
          = (st.trace.find? (fun e => e.1 == i)).map (fun e => e.2) →
      (st.trace.filter (fun e => e.1 == i)).length ≤ 1 →
      objGet (l.foldl (initStep p) st).layers i
          = ((l.foldl (initStep p) st).trace.find? (fun e => e.1 == i)).map
              (fun e => e.2) ∧
      ((l.foldl (initStep p) st).trace.filter
          (fun e => e.1 == i)).length ≤ 1 := by
  induction l with
  | nil => intro st hA hB; exact ⟨hA, hB⟩
  | cons a l ih =>
    intro st hA hB
    rw [List.foldl_cons]
    obtain ⟨hA1, hB1⟩ := step_layers_trace p i hi st a hA hB
    exact ih (initStep p st a) hA1 hB1

theorem step_kept_once (p : Nat) (i : String) (st : BuildState)
    (n : SvgNode)
    (hD1 : (st.out.filter (keptWithId i)).length ≤ 1)
    (hD2 : st.out.any (keptWithId i) = true → objHas st.layers i = true) :
    ((initStep p st n).out.filter (keptWithId i)).length ≤ 1 ∧
    ((initStep p st n).out.any (keptWithId i) = true
        → objHas (initStep p st n).layers i = true) := by
  cases n with
  | textNode => exact ⟨hD1, hD2⟩
  | elem ln ia il ch =>
    by_cases hdr : DRAWABLE_TAGS.contains (lowerStr ln) = true
    · by_cases hq : ((lowerStr ln == "g" && attrTruthy ia)
          && !objHas st.layers (ia.getD "")) = true
      · have hqO : objHas st.layers (ia.getD "") = false := by
          have h2 := hq
          simp only [Bool.and_eq_true, Bool.not_eq_true'] at h2
          exact h2.2
        by_cases hnew : keptWithId i
            (RootEntry.kept (SvgNode.elem ln ia il ch)) = true
        · have hia : ia = some i := by
            cases ia with
            | none => exact Bool.noConfusion hnew
            | some j =>
              have hji : (j == i) = true := by
                have h3 : (DRAWABLE_TAGS.contains (lowerStr ln)
                    && (j == i)) = true := hnew
                simp only [Bool.and_eq_true] at h3
                exact h3.2
              rw [eq_of_beq hji]
          have hqOi : objHas st.layers i = false := by
            rw [hia] at hqO
            exact hqO
          have hany : st.out.any (keptWithId i) = false := by
            by_cases ha : st.out.any (keptWithId i) = true
            · rw [hD2 ha] at hqOi
              exact Bool.noConfusion hqOi
            · exact eq_false_of_ne_true ha
          have hfil : st.out.filter (keptWithId i) = [] := by
            apply List.filter_eq_nil_iff.mpr
            intro a ha hpa
            have : st.out.any (keptWithId i) = true :=
              List.any_eq_true.mpr ⟨a, ha, hpa⟩
            rw [hany] at this
            exact Bool.noConfusion this
          by_cases hw : st.wrapperChildren.isEmpty = true
          · rw [initStep_qualify_noflush p st ln ia il ch hq hw]
            constructor
            · rw [List.filter_append, hfil]
              simp [List.filter_cons, hnew]
            · intro _
              rw [hia]
              rw [objHas_objSet]
              simp
          · rw [initStep_qualify_flush p st ln ia il ch hq
              (eq_false_of_ne_true hw)]
            constructor
            · have hwrap : keptWithId i (RootEntry.wrapper
                  (wrapperId p st.wrapperCount) st.wrapperChildren)
                  = false := rfl
              rw [List.filter_append, List.filter_append, hfil]
              simp [List.filter_cons, hnew, hwrap]
            · intro _
              rw [hia]
              rw [objHas_objSet]
              simp
        · have hnewF : keptWithId i
              (RootEntry.kept (SvgNode.elem ln ia il ch)) = false :=
            eq_false_of_ne_true hnew
          by_cases hw : st.wrapperChildren.isEmpty = true
          · rw [initStep_qualify_noflush p st ln ia il ch hq hw]
            constructor
            · rw [List.filter_append]
              simpa [List.filter_cons, hnewF] using hD1
            · intro hany
              rw [List.any_append] at hany
              have hany2 : st.out.any (keptWithId i) = true := by
                have h4 : ([RootEntry.kept (SvgNode.elem ln ia il
                    ch)].any (keptWithId i)) = false := by
                  simp [hnewF]
                rw [h4] at hany
                simpa using hany
              rw [objHas_objSet, hD2 hany2]
              rfl
          · rw [initStep_qualify_flush p st ln ia il ch hq
              (eq_false_of_ne_true hw)]
            have hwrap : keptWithId i (RootEntry.wrapper
                (wrapperId p st.wrapperCount) st.wrapperChildren)
                = false := rfl
            constructor
            · rw [List.filter_append, List.filter_append]
              simpa [List.filter_cons, hnewF, hwrap] using hD1
            · intro hany
              rw [List.any_append, List.any_append] at hany
              have hany2 : st.out.any (keptWithId i) = true := by
                have h4 : ([RootEntry.kept (SvgNode.elem ln ia il
                    ch)].any (keptWithId i)) = false := by
                  simp [hnewF]
                have h5 : ([RootEntry.wrapper (wrapperId p
                    st.wrapperCount) st.wrapperChildren].any
                    (keptWithId i)) = false := by
                  simp [hwrap]
                rw [h4, h5] at hany
                simpa using hany
              rw [objHas_objSet, objHas_objSet, hD2 hany2]
              rfl
      · rw [initStep_absorb p st ln ia il ch hdr (eq_false_of_ne_true hq)]
        exact ⟨hD1, hD2⟩
    · have hnewF : keptWithId i
          (RootEntry.kept (SvgNode.elem ln ia il ch)) = false := by
        cases ia with
        | none => rfl
        | some j =>
          show (DRAWABLE_TAGS.contains (lowerStr ln) && (j == i)) = false
          rw [eq_false_of_ne_true hdr]
          rfl
      rw [initStep_nondrawable p st ln ia il ch (eq_false_of_ne_true hdr)]
      constructor
      · rw [List.filter_append]
        simpa [List.filter_cons, hnewF] using hD1
      · intro hany
        rw [List.any_append] at hany
        have hany2 : st.out.any (keptWithId i) = true := by
          have h4 : ([RootEntry.kept (SvgNode.elem ln ia il ch)].any
              (keptWithId i)) = false := by
            simp [hnewF]
          rw [h4] at hany
          simpa using hany
        exact hD2 hany2

theorem fold_kept_once (p : Nat) (i : String) (l : List SvgNode) :
    ∀ st : BuildState,
      (st.out.filter (keptWithId i)).length ≤ 1 →
      (st.out.any (keptWithId i) = true → objHas st.layers i = true) →
      ((l.foldl (initStep p) st).out.filter (keptWithId i)).length ≤ 1 ∧
      ((l.foldl (initStep p) st).out.any (keptWithId i) = true
          → objHas (l.foldl (initStep p) st).layers i = true) := by
  induction l with
  | nil => intro st h1 h2; exact ⟨h1, h2⟩
  | cons a l ih =>
    intro st h1 h2
    rw [List.foldl_cons]
    obtain ⟨g1, g2⟩ := step_kept_once p i st a h1 h2
    exact ih (initStep p st a) g1 g2

/-- C6 (counterexample): on
`[g#sozi-wrapper-0-0, duplicate g#sozi-wrapper-0-0, rect]` with
presentation id 0, the duplicate group is demoted into the wrapper, whose
synthesized id collides with the authored id; the final wrapper flush then
overwrites the map entry: the first registration for the id was the
explicit layer of the first group (auto = false), but the final map holds
an auto layer instead of the first-registered node entry. -/
theorem c6_counterexample :
    (runLayerBuilder 0 [gCollide, gCollideDup, rectNode]).trace.head?
        = some ("sozi-wrapper-0-0",
            explicitLayerOf gCollide "sozi-wrapper-0-0" none) ∧
    ((objGet (runLayerBuilder 0 [gCollide, gCollideDup, rectNode]).layers
        "sozi-wrapper-0-0").map (fun l => l.auto) = some true) ∧
    objGet (runLayerBuilder 0 [gCollide, gCollideDup, rectNode]).layers
        "sozi-wrapper-0-0"
      ≠ some (explicitLayerOf gCollide "sozi-wrapper-0-0" none) := by
  refine ⟨rfl, rfl, ?_⟩
  have hval : objGet (runLayerBuilder 0 [gCollide, gCollideDup,
        rectNode]).layers "sozi-wrapper-0-0"
      = some (finalAutoLayerOf "sozi-wrapper-0-0"
          [gCollideDup, rectNode]) := rfl
  intro h
  rw [hval] at h
  have h2 := Option.some.inj h
  have h3 := congrArg Layer.auto h2
  simp [finalAutoLayerOf, explicitLayerOf] at h3

/-- C6 (amended): provided the id is not of the synthesized wrapper id form
`sozi-wrapper-<presId>-<n>`, the layer map entry for any id is exactly the
first registration recorded for that id, and at most one registration is
ever performed for it — so a second group node sharing the id of an
already-registered explicit layer is never registered and never overwrites
the first registration. -/
theorem c6_duplicate_id_first_registration_kept (p : Nat)
    (children : List SvgNode) (i : String)
    (hi : ∀ n, i ≠ wrapperId p n) :
    objGet (runLayerBuilder p children).layers i
        = ((runLayerBuilder p children).trace.find? (fun e => e.1 == i)).map
            (fun e => e.2) ∧
    ((runLayerBuilder p children).trace.filter
        (fun e => e.1 == i)).length ≤ 1 ∧
    ((runLayerBuilder p children).out.filter (keptWithId i)).length ≤ 1 := by
  have hib : ∀ n, (i == wrapperId p n) = false := by
    intro n
    by_cases hq : (i == wrapperId p n) = true
    · exact absurd (eq_of_beq hq) (hi n)
    · exact eq_false_of_ne_true hq
  obtain ⟨hA, hB⟩ := fold_layers_trace p i hib children initState rfl
    (by simp [initState])
  obtain ⟨hD1, hD2⟩ := fold_kept_once p i children initState
    (by simp [initState]) (by intro h; exact absurd h (by simp [initState]))
  have hA' : objGet (buildPass p children).layers i
      = ((buildPass p children).trace.find? (fun e => e.1 == i)).map
          (fun e => e.2) := hA
  have hB' : ((buildPass p children).trace.filter
      (fun e => e.1 == i)).length ≤ 1 := hB
  have hD1' : ((buildPass p children).out.filter
      (keptWithId i)).length ≤ 1 := hD1
  show objGet (finishPass p (buildPass p children)).layers i
      = ((finishPass p (buildPass p children)).trace.find?
          (fun e => e.1 == i)).map (fun e => e.2)
    ∧ ((finishPass p (buildPass p children)).trace.filter
        (fun e => e.1 == i)).length ≤ 1
    ∧ ((finishPass p (buildPass p children)).out.filter
        (keptWithId i)).length ≤ 1
  by_cases hw : (buildPass p children).wrapperChildren.isEmpty = true
  · rw [finishPass_empty p _ hw]
    exact ⟨hA', hB', hD1'⟩
  · rw [finishPass_flush p _ (eq_false_of_ne_true hw)]
    obtain ⟨hA2, hB2⟩ := AB_extend (buildPass p children).layers
      (buildPass p children).trace
      (wrapperId p (buildPass p children).wrapperCount)
      (finalAutoLayerOf (wrapperId p (buildPass p children).wrapperCount)
        (buildPass p children).wrapperChildren) i hA' hB'
      (fun hik => absurd hik (by
        rw [hib (buildPass p children).wrapperCount]
        decide))
    refine ⟨hA2, hB2, ?_⟩
    have hwrap : keptWithId i (RootEntry.wrapper
        (wrapperId p (buildPass p children).wrapperCount)
        (buildPass p children).wrapperChildren) = false := rfl
    rw [List.filter_append]
    simpa [List.filter_cons, hwrap] using hD1' 

/-- Witness for the amended C6 on the concrete scenario: the map entry for
"L1" is the first (and only) registration for "L1", the explicit layer of
the first `g#L1`; the duplicate `g#L1` never overwrote it. -/
theorem c6_duplicate_id_first_registration_kept_witness :
    (∀ n, "L1" ≠ wrapperId 0 n) ∧
    (objGet (runLayerBuilder 0 scenarioChildren).layers "L1"
        = ((runLayerBuilder 0 scenarioChildren).trace.find?
            (fun e => e.1 == "L1")).map (fun e => e.2) ∧
     ((runLayerBuilder 0 scenarioChildren).trace.filter
        (fun e => e.1 == "L1")).length ≤ 1 ∧
     ((runLayerBuilder 0 scenarioChildren).out.filter
        (keptWithId "L1")).length ≤ 1) :=
  ⟨fun n => ne_wrapperId_of_length_lt 0 n (by decide),
   c6_duplicate_id_first_registration_kept 0 scenarioChildren "L1"
     (fun n => ne_wrapperId_of_length_lt 0 n (by decide))⟩

/-! Idempotence of the layer-building pass (C7). -/

theorem noop_fold (p : Nat) (l : List SvgNode) : ∀ st : BuildState,
    st.wrapperChildren = [] →
    (∀ n ∈ l, selfLayerNode n = true) →
    (gIds l).Nodup →
    (∀ k ∈ gIds l, objHas st.layers k = false) →
    (l.foldl (initStep p) st).out = st.out ++ l.map RootEntry.kept ∧
    (l.foldl (initStep p) st).wrapperChildren = [] ∧
    (l.foldl (initStep p) st).wrapperCount = st.wrapperCount ∧
    (∀ e ∈ (l.foldl (initStep p) st).trace,
      e ∈ st.trace ∨ e.2.auto = false) := by
  induction l with
  | nil =>
    intro st hwch _ _ _
    exact ⟨by simp, hwch, rfl, fun e he => Or.inl he⟩
  | cons n l ih =>
    intro st hwch hsl hnd hfresh
    rw [List.foldl_cons]
    cases n with
    | textNode =>
      exact absurd (hsl SvgNode.textNode (List.mem_cons_self _ _))
        (by decide)
    | elem ln ia il ch =>
      by_cases hdr : DRAWABLE_TAGS.contains (lowerStr ln) = true
      · have hsln : selfLayerNode (SvgNode.elem ln ia il ch) = true :=
          hsl _ (List.mem_cons_self _ _)
        have hgt : (lowerStr ln == "g" && attrTruthy ia) = true := by
          have h0 : (!(DRAWABLE_TAGS.contains (lowerStr ln))
              || (lowerStr ln == "g" && attrTruthy ia)) = true := hsln
          rw [hdr] at h0
          simpa using h0
        have hkey : nodeKey (SvgNode.elem ln ia il ch)
            = some (ia.getD "") := by
          show (if DRAWABLE_TAGS.contains (lowerStr ln)
              then some (ia.getD "") else none) = _
          rw [if_pos hdr]
        have hgids : gIds (SvgNode.elem ln ia il ch :: l)
            = ia.getD "" :: gIds l := by
          simp [gIds, List.filterMap_cons, hkey]
        have hfhead : objHas st.layers (ia.getD "") = false := by
          apply hfresh
          rw [hgids]
          exact List.mem_cons_self _ _
        have hq : ((lowerStr ln == "g" && attrTruthy ia)
            && !objHas st.layers (ia.getD "")) = true := by
          rw [hgt, hfhead]
          rfl
        have hwE : st.wrapperChildren.isEmpty = true := by
          rw [hwch]
          rfl
        rw [initStep_qualify_noflush p st ln ia il ch hq hwE]
        have hnd' : (gIds l).Nodup := by
          rw [hgids] at hnd
          exact (List.nodup_cons.mp hnd).2
        have hni : ia.getD "" ∉ gIds l := by
          rw [hgids] at hnd
          exact (List.nodup_cons.mp hnd).1
        obtain ⟨o1, o2, o3, o4⟩ := ih
          { st with
            out := st.out ++ [RootEntry.kept (SvgNode.elem ln ia il ch)],
            layers := objSet st.layers (ia.getD "")
              (explicitLayerOf (SvgNode.elem ln ia il ch) (ia.getD "") il),
            trace := st.trace ++ [(ia.getD "",
              explicitLayerOf (SvgNode.elem ln ia il ch) (ia.getD "") il)] }
          hwch
          (fun m hm => hsl m (List.mem_cons_of_mem _ hm))
          hnd'
          (by
            intro k hk
            show objHas (objSet st.layers (ia.getD "") _) k = false
            rw [objHas_objSet]
            have hk1 : objHas st.layers k = false := by
              apply hfresh
              rw [hgids]
              exact List.mem_cons_of_mem _ hk
            have hk2 : (k == ia.getD "") = false := by
              by_cases hkb : (k == ia.getD "") = true
              · exact absurd ((eq_of_beq hkb) ▸ hk) hni
              · exact eq_false_of_ne_true hkb
            rw [hk1, hk2]
            rfl)
        refine ⟨?_, o2, o3, ?_⟩
        · rw [o1]
          simp
        · intro e he
          rcases o4 e he with h1 | h2
          · rcases List.mem_append.mp h1 with h3 | h4
            · exact Or.inl h3
            · right
              have he2 : e = (ia.getD "",
                  explicitLayerOf (SvgNode.elem ln ia il ch)
                    (ia.getD "") il) := by simpa using h4
              rw [he2]
              rfl
          · exact Or.inr h2
      · have hdrF : DRAWABLE_TAGS.contains (lowerStr ln) = false :=
          eq_false_of_ne_true hdr
        rw [initStep_nondrawable p st ln ia il ch hdrF]
        have hkey : nodeKey (SvgNode.elem ln ia il ch) = none := by
          show (if DRAWABLE_TAGS.contains (lowerStr ln)
              then some (ia.getD "") else none) = _
          rw [if_neg (by rw [hdrF]; decide)]
        have hgids : gIds (SvgNode.elem ln ia il ch :: l) = gIds l := by
          simp [gIds, List.filterMap_cons, hkey]
        obtain ⟨o1, o2, o3, o4⟩ := ih
          { st with
            out := st.out ++ [RootEntry.kept (SvgNode.elem ln ia il ch)] }
          hwch
          (fun m hm => hsl m (List.mem_cons_of_mem _ hm))
          (by rw [hgids] at hnd; exact hnd)
          (by
            intro k hk
            apply hfresh
            rw [hgids]
            exact hk)
        refine ⟨?_, o2, o3, o4⟩
        rw [o1]
        simp

/-- C7 (counterexample): starting from
`[g#sozi-wrapper-0-0, rect]` with presentation id 0, the first pass leaves
the tree `[g#sozi-wrapper-0-0, wrapper#sozi-wrapper-0-0 [rect]]`, in which
two root children share an id; running the pass again (with presentation
id 1) demotes the second of them into a brand-new wrapper: a node is moved
and a new wrapper is created, so the second run is not a no-op. -/
theorem c7_counterexample :
    ((runLayerBuilder 1 ((runLayerBuilder 0
        [gCollide, rectNode]).out.map RootEntry.toNode)).trace.filter
          (fun e => e.2.auto)).length = 1 ∧
    ((runLayerBuilder 1 ((runLayerBuilder 0
        [gCollide, rectNode]).out.map RootEntry.toNode)).out.filter
          (fun e => match e with
            | RootEntry.wrapper _ _ => true
            | RootEntry.kept _ => false)).length = 1 := ⟨rfl, rfl⟩

theorem gIds_append (a b : List SvgNode) :
    gIds (a ++ b) = gIds a ++ gIds b := by
  simp [gIds, List.filterMap_append]

theorem selfLayerNode_of_guard (ln : String) (ia il : Option String)
    (ch : List SvgNode)
    (hgt : (lowerStr ln == "g" && attrTruthy ia) = true) :
    selfLayerNode (SvgNode.elem ln ia il ch) = true := by
  show (!(DRAWABLE_TAGS.contains (lowerStr ln))
      || (lowerStr ln == "g" && attrTruthy ia)) = true
  rw [hgt]
  simp

theorem selfLayerNode_nondrawable (ln : String) (ia il : Option String)
    (ch : List SvgNode)
    (hdr : DRAWABLE_TAGS.contains (lowerStr ln) = false) :
    selfLayerNode (SvgNode.elem ln ia il ch) = true := by
  show (!(DRAWABLE_TAGS.contains (lowerStr ln))
      || (lowerStr ln == "g" && attrTruthy ia)) = true
  rw [hdr]
  rfl

theorem selfLayerNode_wrapperNode (wid : String)
    (hne : (wid == "") = false) (wch : List SvgNode) :
    selfLayerNode (SvgNode.elem "g" (some wid) none wch) = true := by
  apply selfLayerNode_of_guard
  have h1 : attrTruthy (some wid) = true := by
    show (!(wid == "")) = true
    rw [hne]
    rfl
  rw [h1]
  decide

theorem nodeKey_wrapperNode (wid : String) (wch : List SvgNode) :
    nodeKey (SvgNode.elem "g" (some wid) none wch) = some wid := by
  show (if DRAWABLE_TAGS.contains (lowerStr "g")
      then some ((some wid).getD "") else none) = some wid
  rw [if_pos (by decide)]
  rfl

theorem nodeKey_drawable (ln : String) (ia il : Option String)
    (ch : List SvgNode)
    (hdr : DRAWABLE_TAGS.contains (lowerStr ln) = true) :
    nodeKey (SvgNode.elem ln ia il ch) = some (ia.getD "") := by
  show (if DRAWABLE_TAGS.contains (lowerStr ln)
      then some (ia.getD "") else none) = _
  rw [if_pos hdr]

theorem nodeKey_nondrawable (ln : String) (ia il : Option String)
    (ch : List SvgNode)
    (hdr : DRAWABLE_TAGS.contains (lowerStr ln) = false) :
    nodeKey (SvgNode.elem ln ia il ch) = none := by
  show (if DRAWABLE_TAGS.contains (lowerStr ln)
      then some (ia.getD "") else none) = none
  rw [if_neg (by rw [hdr]; decide)]

theorem nodup_append_one {xs : List String} {a : String}
    (h : xs.Nodup) (ha : a ∉ xs) : (xs ++ [a]).Nodup := by
  rw [List.nodup_append]
  refine ⟨h, List.nodup_singleton a, ?_⟩
  intro x hx hxa
  have : x = a := by simpa using hxa
  rw [this] at hx
  exact ha hx

theorem pass1_shape_step (p : Nat) (st : BuildState) (n : SvgNode)
    (hn : ∀ ln ia il ch, n = SvgNode.elem ln ia il ch →
        ∀ m, ia ≠ some (wrapperId p m))
    (h1 : ∀ x ∈ st.out.map RootEntry.toNode, selfLayerNode x = true)
    (h2 : (gIds (st.out.map RootEntry.toNode)).Nodup)
    (h3 : ∀ k ∈ gIds (st.out.map RootEntry.toNode),
        objHas st.layers k = true)
    (h4 : ∀ j, st.wrapperCount ≤ j →
        objHas st.layers (wrapperId p j) = false) :
    (∀ x ∈ (initStep p st n).out.map RootEntry.toNode,
        selfLayerNode x = true) ∧
    (gIds ((initStep p st n).out.map RootEntry.toNode)).Nodup ∧
    (∀ k ∈ gIds ((initStep p st n).out.map RootEntry.toNode),
        objHas (initStep p st n).layers k = true) ∧
    (∀ j, (initStep p st n).wrapperCount ≤ j →
        objHas (initStep p st n).layers (wrapperId p j) = false) := by
  cases n with
  | textNode => exact ⟨h1, h2, h3, h4⟩
  | elem ln ia il ch =>
    by_cases hdr : DRAWABLE_TAGS.contains (lowerStr ln) = true
    · by_cases hq : ((lowerStr ln == "g" && attrTruthy ia)
          && !objHas st.layers (ia.getD "")) = true
      · have hgt : (lowerStr ln == "g" && attrTruthy ia) = true := by
          have h0 := hq
          simp only [Bool.and_eq_true] at h0
          rw [(Bool.and_eq_true _ _).mpr ⟨h0.1.1, h0.1.2⟩]
        have hqO : objHas st.layers (ia.getD "") = false := by
          have h0 := hq
          simp only [Bool.and_eq_true, Bool.not_eq_true'] at h0
          exact h0.2
        have hkeyn : nodeKey (SvgNode.elem ln ia il ch)
            = some (ia.getD "") := nodeKey_drawable ln ia il ch hdr
        have hkni : ia.getD "" ∉ gIds (st.out.map RootEntry.toNode) := by
          intro hmem
          rw [h3 _ hmem] at hqO
          exact Bool.noConfusion hqO
        have hiane : ∀ m, (ia.getD "" == wrapperId p m) = false := by
          intro m
          by_cases hb : (ia.getD "" == wrapperId p m) = true
          · exfalso
            have he := eq_of_beq hb
            have htr : attrTruthy ia = true := by
              have h0 := hq
              simp only [Bool.and_eq_true] at h0
              exact h0.1.2
            cases ia with
            | none => exact Bool.noConfusion htr
            | some v =>
              exact hn ln (some v) il ch rfl m (by
                rw [show (Option.some v).getD "" = v from rfl] at he
                rw [he])
          · exact eq_false_of_ne_true hb
        by_cases hw : st.wrapperChildren.isEmpty = true
        · rw [initStep_qualify_noflush p st ln ia il ch hq hw]
          refine ⟨?_, ?_, ?_, ?_⟩
          · intro x hx
            rw [List.map_append] at hx
            rcases List.mem_append.mp hx with hx1 | hx2
            · exact h1 x hx1
            · have hx3 : x = SvgNode.elem ln ia il ch := by simpa using hx2
              rw [hx3]
              exact selfLayerNode_of_guard ln ia il ch hgt
          · rw [List.map_append, gIds_append]
            have hsing : gIds [RootEntry.toNode
                (RootEntry.kept (SvgNode.elem ln ia il ch))]
                = [ia.getD ""] := by
              simp [gIds, List.filterMap_cons, RootEntry.toNode, hkeyn]
            rw [show (List.map RootEntry.toNode
                [RootEntry.kept (SvgNode.elem ln ia il ch)])
                = [SvgNode.elem ln ia il ch] from rfl]
            have hsing2 : gIds [SvgNode.elem ln ia il ch]
                = [ia.getD ""] := by
              simp [gIds, List.filterMap_cons, RootEntry.toNode, hkeyn]
            rw [hsing2]
            exact nodup_append_one h2 hkni
          · intro k hk
            rw [List.map_append, gIds_append] at hk
            rw [objHas_objSet]
            rcases List.mem_append.mp hk with hk1 | hk2
            · rw [h3 k hk1]
              rfl
            · have hk3 : k = ia.getD "" := by
                have hsing2 : gIds [SvgNode.elem ln ia il ch]
                    = [ia.getD ""] := by
                  simp [gIds, List.filterMap_cons, RootEntry.toNode, hkeyn]
                rw [show (List.map RootEntry.toNode
                    [RootEntry.kept (SvgNode.elem ln ia il ch)])
                    = [SvgNode.elem ln ia il ch] from rfl, hsing2] at hk2
                simpa using hk2
              rw [hk3]
              simp
          · intro j hj
            rw [objHas_objSet, h4 j hj]
            have : (wrapperId p j == ia.getD "") = false := by
              by_cases hb : (wrapperId p j == ia.getD "") = true
              · exfalso
                have hbe := eq_of_beq hb
                have := hiane j
                rw [← hbe] at this
                simp at this
              · exact eq_false_of_ne_true hb
            rw [this]
            rfl
        · have hwF : st.wrapperChildren.isEmpty = false :=
            eq_false_of_ne_true hw
          rw [initStep_qualify_flush p st ln ia il ch hq hwF]
          have hwid := wrapperId_ne_empty p st.wrapperCount
          have hwkey : nodeKey (SvgNode.elem "g"
              (some (wrapperId p st.wrapperCount)) none st.wrapperChildren)
              = some (wrapperId p st.wrapperCount) :=
            nodeKey_wrapperNode _ _
          have hwni : wrapperId p st.wrapperCount
              ∉ gIds (st.out.map RootEntry.toNode) := by
            intro hmem
            have := h3 _ hmem
            rw [h4 st.wrapperCount (Nat.le_refl _)] at this
            exact Bool.noConfusion this
          have hwne : (ia.getD "" == wrapperId p st.wrapperCount) = false :=
            hiane st.wrapperCount
          refine ⟨?_, ?_, ?_, ?_⟩
          · intro x hx
            rw [List.map_append, List.map_append] at hx
            rcases List.mem_append.mp hx with hx1 | hx2
            · rcases List.mem_append.mp hx1 with hx3 | hx4
              · exact h1 x hx3
              · have hx5 : x = SvgNode.elem "g"
                    (some (wrapperId p st.wrapperCount)) none
                    st.wrapperChildren := by simpa using hx4
                rw [hx5]
                exact selfLayerNode_wrapperNode _ hwid _
            · have hx3 : x = SvgNode.elem ln ia il ch := by simpa using hx2
              rw [hx3]
              exact selfLayerNode_of_guard ln ia il ch hgt
          · rw [List.map_append, List.map_append, gIds_append, gIds_append]
            have hg1 : gIds (List.map RootEntry.toNode
                [RootEntry.wrapper (wrapperId p st.wrapperCount)
                  st.wrapperChildren]) = [wrapperId p st.wrapperCount] := by
              simp [gIds, List.filterMap_cons, RootEntry.toNode, hwkey]
            have hg2 : gIds (List.map RootEntry.toNode
                [RootEntry.kept (SvgNode.elem ln ia il ch)])
                = [ia.getD ""] := by
              simp [gIds, List.filterMap_cons, RootEntry.toNode, hkeyn]
            rw [hg1, hg2]
            apply nodup_append_one
            · exact nodup_append_one h2 hwni
            · intro hmem
              rcases List.mem_append.mp hmem with hm1 | hm2
              · exact hkni hm1
              · have : ia.getD "" = wrapperId p st.wrapperCount := by
                  simpa using hm2
                rw [this] at hwne
                simp at hwne
          · intro k hk
            rw [List.map_append, List.map_append, gIds_append,
              gIds_append] at hk
            have hg1 : gIds (List.map RootEntry.toNode
                [RootEntry.wrapper (wrapperId p st.wrapperCount)
                  st.wrapperChildren]) = [wrapperId p st.wrapperCount] := by
              simp [gIds, List.filterMap_cons, RootEntry.toNode, hwkey]
            have hg2 : gIds (List.map RootEntry.toNode
                [RootEntry.kept (SvgNode.elem ln ia il ch)])
                = [ia.getD ""] := by
              simp [gIds, List.filterMap_cons, RootEntry.toNode, hkeyn]
            rw [hg1, hg2] at hk
            rw [objHas_objSet, objHas_objSet]
            rcases List.mem_append.mp hk with hk1 | hk2
            · rcases List.mem_append.mp hk1 with hk3 | hk4
              · rw [h3 k hk3]
                rfl
              · have : k = wrapperId p st.wrapperCount := by simpa using hk4
                rw [this]
                simp
            · have : k = ia.getD "" := by simpa using hk2
              rw [this]
              simp
          · intro j hj
            have hj1 : st.wrapperCount ≤ j := Nat.le_of_succ_le hj
            have hjne : st.wrapperCount ≠ j := by
              intro he
              rw [he] at hj
              exact Nat.not_succ_le_self j hj
            rw [objHas_objSet, objHas_objSet, h4 j hj1]
            have hb1 : (wrapperId p j == wrapperId p st.wrapperCount)
                = false := by
              by_cases hb : (wrapperId p j == wrapperId p st.wrapperCount)
                  = true
              · exact absurd (wrapperId_injective (eq_of_beq hb)).symm hjne
              · exact eq_false_of_ne_true hb
            have hb2 : (wrapperId p j == ia.getD "") = false := by
              by_cases hb : (wrapperId p j == ia.getD "") = true
              · exfalso
                have hbe := eq_of_beq hb
                have := hiane j
                rw [← hbe] at this
                simp at this
              · exact eq_false_of_ne_true hb
            rw [hb1, hb2]
            rfl
      · rw [initStep_absorb p st ln ia il ch hdr (eq_false_of_ne_true hq)]
        exact ⟨h1, h2, h3, h4⟩
    · have hdrF : DRAWABLE_TAGS.contains (lowerStr ln) = false :=
        eq_false_of_ne_true hdr
      rw [initStep_nondrawable p st ln ia il ch hdrF]
      have hkeyn : nodeKey (SvgNode.elem ln ia il ch) = none :=
        nodeKey_nondrawable ln ia il ch hdrF
      have hgnil : gIds (List.map RootEntry.toNode
          [RootEntry.kept (SvgNode.elem ln ia il ch)]) = [] := by
        simp [gIds, List.filterMap_cons, RootEntry.toNode, hkeyn]
      refine ⟨?_, ?_, ?_, h4⟩
      · intro x hx
        rw [List.map_append] at hx
        rcases List.mem_append.mp hx with hx1 | hx2
        · exact h1 x hx1
        · have hx3 : x = SvgNode.elem ln ia il ch := by simpa using hx2
          rw [hx3]
          exact selfLayerNode_nondrawable ln ia il ch hdrF
      · rw [List.map_append, gIds_append, hgnil]
        simpa using h2
      · intro k hk
        rw [List.map_append, gIds_append, hgnil] at hk
        apply h3
        simpa using hk

theorem pass1_shape_fold (p : Nat) (l : List SvgNode) :
    ∀ st : BuildState,
      (∀ n ∈ l, ∀ ln ia il ch, n = SvgNode.elem ln ia il ch →
          ∀ m, ia ≠ some (wrapperId p m)) →
      (∀ x ∈ st.out.map RootEntry.toNode, selfLayerNode x = true) →
      (gIds (st.out.map RootEntry.toNode)).Nodup →
      (∀ k ∈ gIds (st.out.map RootEntry.toNode),
          objHas st.layers k = true) →
      (∀ j, st.wrapperCount ≤ j →
          objHas st.layers (wrapperId p j) = false) →
      (∀ x ∈ (l.foldl (initStep p) st).out.map RootEntry.toNode,
          selfLayerNode x = true) ∧
      (gIds ((l.foldl (initStep p) st).out.map RootEntry.toNode)).Nodup ∧
      (∀ k ∈ gIds ((l.foldl (initStep p) st).out.map RootEntry.toNode),
          objHas (l.foldl (initStep p) st).layers k = true) ∧
      (∀ j, (l.foldl (initStep p) st).wrapperCount ≤ j →
          objHas (l.foldl (initStep p) st).layers (wrapperId p j)
            = false) := by
  induction l with
  | nil => intro st _ h1 h2 h3 h4; exact ⟨h1, h2, h3, h4⟩
  | cons a l ih =>
    intro st hn h1 h2 h3 h4
    rw [List.foldl_cons]
    obtain ⟨g1, g2, g3, g4⟩ := pass1_shape_step p st a
      (hn a (List.mem_cons_self _ _)) h1 h2 h3 h4
    exact ih (initStep p st a)
      (fun n hm => hn n (List.mem_cons_of_mem _ hm)) g1 g2 g3 g4

theorem pass1_mid_props (p : Nat) (children : List SvgNode)
    (hn : ∀ n ∈ children, ∀ ln ia il ch, n = SvgNode.elem ln ia il ch →
        ∀ m, ia ≠ some (wrapperId p m)) :
    (∀ x ∈ (runLayerBuilder p children).out.map RootEntry.toNode,
        selfLayerNode x = true) ∧
    (gIds ((runLayerBuilder p children).out.map RootEntry.toNode)).Nodup := by
  obtain ⟨h1, h2, h3, h4⟩ := pass1_shape_fold p children initState hn
    (by intro x hx; exact absurd hx (List.not_mem_nil x))
    (by simp [initState, gIds])
    (by intro k hk; exact absurd hk (by simp [initState, gIds]))
    (by intro j _; rfl)
  have h1' : ∀ x ∈ (buildPass p children).out.map RootEntry.toNode,
      selfLayerNode x = true := h1
  have h2' : (gIds ((buildPass p children).out.map
      RootEntry.toNode)).Nodup := h2
  have h3' : ∀ k ∈ gIds ((buildPass p children).out.map RootEntry.toNode),
      objHas (buildPass p children).layers k = true := h3
  have h4' : ∀ j, (buildPass p children).wrapperCount ≤ j →
      objHas (buildPass p children).layers (wrapperId p j) = false := h4
  show (∀ x ∈ (finishPass p (buildPass p children)).out.map
      RootEntry.toNode, selfLayerNode x = true) ∧
    (gIds ((finishPass p (buildPass p children)).out.map
      RootEntry.toNode)).Nodup
  by_cases hw : (buildPass p children).wrapperChildren.isEmpty = true
  · rw [finishPass_empty p _ hw]
    exact ⟨h1', h2'⟩
  · rw [finishPass_flush p _ (eq_false_of_ne_true hw)]
    have hwid := wrapperId_ne_empty p (buildPass p children).wrapperCount
    have hwkey := nodeKey_wrapperNode
      (wrapperId p (buildPass p children).wrapperCount)
      (buildPass p children).wrapperChildren
    have hwni : wrapperId p (buildPass p children).wrapperCount
        ∉ gIds ((buildPass p children).out.map RootEntry.toNode) := by
      intro hmem
      have := h3' _ hmem
      rw [h4' (buildPass p children).wrapperCount (Nat.le_refl _)] at this
      exact Bool.noConfusion this
    constructor
    · intro x hx
      rw [List.map_append] at hx
      rcases List.mem_append.mp hx with hx1 | hx2
      · exact h1' x hx1
      · have hx3 : x = SvgNode.elem "g"
            (some (wrapperId p (buildPass p children).wrapperCount)) none
            (buildPass p children).wrapperChildren := by simpa using hx2
        rw [hx3]
        exact selfLayerNode_wrapperNode _ hwid _
    · rw [List.map_append, gIds_append]
      have hg1 : gIds (List.map RootEntry.toNode
          [RootEntry.wrapper (wrapperId p
            (buildPass p children).wrapperCount)
            (buildPass p children).wrapperChildren])
          = [wrapperId p (buildPass p children).wrapperCount] := by
        simp [gIds, List.filterMap_cons, RootEntry.toNode, hwkey]
      rw [hg1]
      exact nodup_append_one h2' hwni

/-- C7 (amended): provided no element child of the root carries an id of
the synthesized wrapper id form `sozi-wrapper-<presId>-<n>` of the first
pass, running the layer-building pass a second time on the tree left by
the first pass changes nothing: every direct child is kept in place (no
node is moved or removed) and no auto layer — hence no new wrapper — is
registered.  Without that proviso a first-pass output can hold two root
children with the same id, and the second pass demotes the second of them
into a fresh wrapper. -/
theorem c7_second_pass_noop (p1 p2 : Nat) (children : List SvgNode)
    (hn : ∀ n ∈ children, ∀ ln ia il ch, n = SvgNode.elem ln ia il ch →
        ∀ m, ia ≠ some (wrapperId p1 m)) :
    (runLayerBuilder p2
        ((runLayerBuilder p1 children).out.map RootEntry.toNode)).out
      = ((runLayerBuilder p1 children).out.map RootEntry.toNode).map
          RootEntry.kept ∧
    (∀ e ∈ (runLayerBuilder p2
        ((runLayerBuilder p1 children).out.map RootEntry.toNode)).trace,
      e.2.auto = false) := by
  obtain ⟨m1, m2⟩ := pass1_mid_props p1 children hn
  obtain ⟨o1, o2, o3, o4⟩ := noop_fold p2
    ((runLayerBuilder p1 children).out.map RootEntry.toNode) initState
    rfl m1 m2 (fun k _ => rfl)
  have o1' : (buildPass p2 ((runLayerBuilder p1 children).out.map
      RootEntry.toNode)).out
      = initState.out ++ ((runLayerBuilder p1 children).out.map
          RootEntry.toNode).map RootEntry.kept := o1
  have o2' : (buildPass p2 ((runLayerBuilder p1 children).out.map
      RootEntry.toNode)).wrapperChildren = [] := o2
  have o4' : ∀ e ∈ (buildPass p2 ((runLayerBuilder p1 children).out.map
      RootEntry.toNode)).trace, e ∈ initState.trace ∨ e.2.auto = false := o4
  have hfin : runLayerBuilder p2 ((runLayerBuilder p1 children).out.map
      RootEntry.toNode)
      = buildPass p2 ((runLayerBuilder p1 children).out.map
          RootEntry.toNode) := by
    apply finishPass_empty
    rw [o2']
    rfl
  constructor
  · rw [hfin, o1']
    simp [initState]
  · intro e he
    rw [hfin] at he
    rcases o4' e he with h1 | h2
    · exact absurd h1 (by simp [initState])
    · exact h2

/-- Witness for the amended C7 on the concrete scenario: no id in the
scenario matches the wrapper-id pattern, and the second pass keeps every
root child in place and registers no auto layer. -/
theorem c7_second_pass_noop_witness :
    (∀ n ∈ scenarioChildren, ∀ ln ia il ch,
        n = SvgNode.elem ln ia il ch → ∀ m, ia ≠ some (wrapperId 0 m)) ∧
    ((runLayerBuilder 1
        ((runLayerBuilder 0 scenarioChildren).out.map RootEntry.toNode)).out
      = ((runLayerBuilder 0 scenarioChildren).out.map RootEntry.toNode).map
          RootEntry.kept ∧
    (∀ e ∈ (runLayerBuilder 1
        ((runLayerBuilder 0 scenarioChildren).out.map
          RootEntry.toNode)).trace,
      e.2.auto = false)) := by
  have hids : ∀ n ∈ scenarioChildren, ∀ ln ia il ch,
      n = SvgNode.elem ln ia il ch → ∀ m, ia ≠ some (wrapperId 0 m) := by
    intro n hmem ln ia il ch hne m hc
    have hmem5 : n = SvgNode.textNode ∨ n = rectNode ∨ n = gL1
        ∨ n = circNode ∨ n = gL1dup := by
      simpa [scenarioChildren] using hmem
    rcases hmem5 with h | h | h | h | h <;> rw [h] at hne
    · exact SvgNode.noConfusion hne
    · cases hne
      exact Option.noConfusion hc
    · cases hne
      exact ne_wrapperId_of_length_lt 0 m (by decide) (Option.some.inj hc)
    · cases hne
      exact Option.noConfusion hc
    · cases hne
      exact ne_wrapperId_of_length_lt 0 m (by decide) (Option.some.inj hc)
  exact ⟨hids, c7_second_pass_noop 0 1 scenarioChildren hids⟩

end SoziDoc
